import Mathlib

/-!
Verification of the balance-aggregation core of `src/screen.py`.

The dashboard's computational core is `calculate_cumsums` (lines 77-105):
five passes over a pandas DataFrame, each a `sort_values` by some keys
followed by a `groupby(...)[col].cumsum()` whose result is attached as a new
column.  We shallowly embed the DataFrame rows, the stable lexicographic
sort performed by `sort_values` (pandas uses a stable lexsort for
multi-column keys), and the positional per-group running sum performed by
`groupby(...).cumsum()`.

Two embeddings are given:
* a typed model (`Row`, `calculate_cumsums`) in which every row carries the
  schema produced by `load_data`, used for the functional claims;
* an untyped frame model (`DFU`, `calculate_cumsums_u`) in which a frame
  carries an explicit column list and column access can fail, used for the
  schema-error and column-name claims, plus a model of `load_data` itself.
-/

/-! ### Computable linear orders on sort keys

pandas `sort_values` compares key tuples lexicographically.  `KeyOrder`
packages a computable strict comparison; `KeyOrder.Laws` states the order
axioms the sorting proofs need.  (Mathlib's `LinearOrder String` instance is
built by tactics and does not reduce in the kernel, so we carry our own
comparator for the string-valued key columns.) -/

structure KeyOrder (κ : Type) where
  ltB : κ → κ → Bool

structure KeyOrder.Laws {κ : Type} (ko : KeyOrder κ) : Prop where
  lt_trans : ∀ a b c, ko.ltB a b = true → ko.ltB b c = true → ko.ltB a c = true
  lt_asymm : ∀ a b, ko.ltB a b = true → ko.ltB b a = true → False
  eq_of_not_lt : ∀ a b, ko.ltB a b = false → ko.ltB b a = false → a = b

def natKO : KeyOrder Nat where
  ltB a b := decide (a < b)

def charLtB (c d : Char) : Bool := decide (c.toNat < d.toNat)

def charsLtB : List Char → List Char → Bool
  | [], [] => false
  | [], _ :: _ => true
  | _ :: _, [] => false
  | c :: cs, d :: ds => charLtB c d || (decide (c = d) && charsLtB cs ds)

def strKO : KeyOrder String where
  ltB s t := charsLtB s.data t.data

/-- Lexicographic product of two key orders, as used by multi-column
`sort_values`. -/
def prodKO {κ₁ κ₂ : Type} [DecidableEq κ₁] (ka : KeyOrder κ₁) (kb : KeyOrder κ₂) :
    KeyOrder (κ₁ × κ₂) where
  ltB p q := ka.ltB p.1 q.1 || (decide (p.1 = q.1) && kb.ltB p.2 q.2)

/-! ### Stable sorting (model of pandas `sort_values` with multi-column keys)

pandas uses `np.lexsort` for multi-column sorts, which is stable; a stable
sort is fully characterised by its comparison, so insertion sort (inserting
before the first element that is not strictly smaller) is a faithful
model. -/

def orderedInsertB {α : Type} (le : α → α → Bool) (a : α) : List α → List α
  | [] => [a]
  | b :: l => if le a b then a :: b :: l else b :: orderedInsertB le a l

def insertionSortB {α : Type} (le : α → α → Bool) : List α → List α
  | [] => []
  | b :: l => orderedInsertB le b (insertionSortB le l)

/-- The non-strict comparison on elements induced by a key order and a sort
key: `a` may stay before `b` iff `b`'s key is not strictly smaller. -/
def keyLe {α κ : Type} (ko : KeyOrder κ) (f : α → κ) (a b : α) : Bool :=
  ! ko.ltB (f b) (f a)

/-- Sortedness of a list with respect to a key order and a sort key. -/
def SortedB {α κ : Type} (ko : KeyOrder κ) (f : α → κ) (l : List α) : Prop :=
  l.Pairwise fun a b => keyLe ko f a b = true

/-! ### The row model (schema produced by `load_data`, lines 43-64)

`Base` holds the six columns of the loaded frame that `calculate_cumsums`
reads: `Grupo`, `Descrição`, `Sell-in`, `Sell-out`, `Diferença`,
`mes_ano_dt`.  Periods are months; we model the (totally ordered) period
values as `Nat`.  `Row` adds the five columns that `calculate_cumsums`
attaches; a column an assignment has not yet created is `none`. -/

structure Base where
  grupo : String
  descricao : String
  sellIn : Int
  sellOut : Int
  diferenca : Int
  mesAnoDt : Nat
deriving DecidableEq

structure Row where
  base : Base
  /-- column `'Estoque Total por Produto'` -/
  estoqueTotalPorProduto : Option Int := none
  /-- column `'Estoque por Grupo'` -/
  estoquePorGrupo : Option Int := none
  /-- column `'Sell-in por Grupo'` -/
  sellInPorGrupo : Option Int := none
  /-- column `'Sell-out por Grupo'` -/
  sellOutPorGrupo : Option Int := none
  /-- column `'Estoque por Produto e Grupo'` -/
  estoquePorProdutoEGrupo : Option Int := none
deriving DecidableEq

/-- Sort key of `df.sort_values(['Descrição', 'mes_ano_dt'])` (line 86). -/
def sortKeyDM (b : Base) : String × Nat := (b.descricao, b.mesAnoDt)

/-- Sort key of `df.sort_values(['Grupo', 'mes_ano_dt'])` (lines 90, 94, 98). -/
def sortKeyGM (b : Base) : String × Nat := (b.grupo, b.mesAnoDt)

/-- Sort key of `df.sort_values(['Descrição', 'Grupo', 'mes_ano_dt'])` (line 102). -/
def sortKeyDGM (b : Base) : (String × String) × Nat := ((b.descricao, b.grupo), b.mesAnoDt)

def koSN : KeyOrder (String × Nat) := prodKO strKO natKO

def koSS : KeyOrder (String × String) := prodKO strKO strKO

def koSSN : KeyOrder ((String × String) × Nat) := prodKO koSS natKO

/-! ### Per-group running sum (model of `groupby(keys)[col].cumsum()`)

`groupby(...).cumsum()` keeps the frame's current row order and gives each
row the sum of `val` over the rows at or before it (in that order) whose
group key equals its own; the result is attached by the setter. -/

def cumsumAux {α κ : Type} [DecidableEq κ] (key : α → κ) (val : α → Int)
    (set : α → Int → α) (prev : List α) : List α → List α
  | [] => []
  | r :: rs =>
      set r ((((prev.filter fun s => key s = key r).map val).sum) + val r)
        :: cumsumAux key val set (prev ++ [r]) rs

def cumsumBy {α κ : Type} [DecidableEq κ] (key : α → κ) (val : α → Int)
    (set : α → Int → α) (rows : List α) : List α :=
  cumsumAux key val set [] rows

/-! ### `calculate_cumsums` (lines 77-105): five sort+cumsum passes -/

/-- Group key of `groupby('Descrição')` (line 87). -/
def keyD (r : Row) : String := r.base.descricao

/-- Group key of `groupby('Grupo')` (lines 91, 95, 99). -/
def keyG (r : Row) : String := r.base.grupo

/-- Group key of `groupby(['Descrição', 'Grupo'])` (line 103). -/
def keyDG (r : Row) : String × String := (r.base.descricao, r.base.grupo)

def valDif (r : Row) : Int := r.base.diferenca

def valSI (r : Row) : Int := r.base.sellIn

def valSO (r : Row) : Int := r.base.sellOut

/-- Row comparison of `sort_values(['Descrição', 'mes_ano_dt'])`. -/
def leDM : Row → Row → Bool := keyLe koSN fun r => sortKeyDM r.base

/-- Row comparison of `sort_values(['Grupo', 'mes_ano_dt'])`. -/
def leGM : Row → Row → Bool := keyLe koSN fun r => sortKeyGM r.base

/-- Row comparison of `sort_values(['Descrição', 'Grupo', 'mes_ano_dt'])`. -/
def leDGM : Row → Row → Bool := keyLe koSSN fun r => sortKeyDGM r.base

/-- Lines 86-87: sort by `['Descrição', 'mes_ano_dt']`, then
`df['Estoque Total por Produto'] = df.groupby('Descrição')['Diferença'].cumsum()`. -/
def pass1 (df : List Row) : List Row :=
  cumsumBy keyD valDif (fun r v => { r with estoqueTotalPorProduto := some v })
    (insertionSortB leDM df)

/-- Lines 90-91: sort by `['Grupo', 'mes_ano_dt']`, then
`df['Estoque por Grupo'] = df.groupby('Grupo')['Diferença'].cumsum()`. -/
def pass2 (df : List Row) : List Row :=
  cumsumBy keyG valDif (fun r v => { r with estoquePorGrupo := some v })
    (insertionSortB leGM (pass1 df))

/-- Lines 94-95: sort by `['Grupo', 'mes_ano_dt']`, then
`df['Sell-in por Grupo'] = df.groupby('Grupo')['Sell-in'].cumsum()`. -/
def pass3 (df : List Row) : List Row :=
  cumsumBy keyG valSI (fun r v => { r with sellInPorGrupo := some v })
    (insertionSortB leGM (pass2 df))

/-- Lines 98-99: sort by `['Grupo', 'mes_ano_dt']`, then
`df['Sell-out por Grupo'] = df.groupby('Grupo')['Sell-out'].cumsum()`. -/
def pass4 (df : List Row) : List Row :=
  cumsumBy keyG valSO (fun r v => { r with sellOutPorGrupo := some v })
    (insertionSortB leGM (pass3 df))

/-- Lines 102-103: sort by `['Descrição', 'Grupo', 'mes_ano_dt']`, then
`df['Estoque por Produto e Grupo'] =
 df.groupby(['Descrição', 'Grupo'])['Diferença'].cumsum()`. -/
def pass5 (df : List Row) : List Row :=
  cumsumBy keyDG valDif (fun r v => { r with estoquePorProdutoEGrupo := some v })
    (insertionSortB leDGM (pass4 df))

/-- `calculate_cumsums` (lines 77-105).  The initial `df.copy()` (line 83)
makes the pandas function non-mutating; the embedding is pure, so the copy
is implicit. -/
def calculate_cumsums (df : List Row) : List Row :=
  pass5 df

/-! ### Specification-side predicates and concrete inputs used by the claims -/

/-- The row period, column `mes_ano_dt`. -/
def mesOf (r : Row) : Nat := r.base.mesAnoDt

/-- The full tie key of the spec: product (`Descrição`), group (`Grupo`) and
period; rows sharing all three are "tie rows". -/
def tieKeyB (b : Base) : String × String × Nat := (b.descricao, b.grupo, b.mesAnoDt)

/-- The spec's running-balance invariant for one granularity: every output
row's balance equals the sum of `Diferença` over all input rows of the same
partition whose period is at most the row's period. -/
abbrev runningBalanceSpec {κ : Type} [DecidableEq κ] (key : Row → κ) (get : Row → Option Int)
    (df out : List Row) : Prop :=
  ∀ r ∈ out, get r
    = some (((df.filter fun s => key s = key r ∧ mesOf s ≤ mesOf r).map valDif).sum)

/-- Claim C1 as stated, over the three `Diferença` granularities computed by
`calculate_cumsums` (per product, per group, per product-and-group). -/
abbrev claimC1 (df : List Row) : Prop :=
  runningBalanceSpec keyD Row.estoqueTotalPorProduto df (calculate_cumsums df)
    ∧ runningBalanceSpec keyG Row.estoquePorGrupo df (calculate_cumsums df)
    ∧ runningBalanceSpec keyDG Row.estoquePorProdutoEGrupo df (calculate_cumsums df)

/-- No two rows share a product (`Descrição`) and a period: the
`['Descrição', 'mes_ano_dt']` sort key has no ties. -/
abbrev distinctDM (df : List Row) : Prop :=
  df.Pairwise fun a b => a.base.descricao = b.base.descricao → a.base.mesAnoDt ≠ b.base.mesAnoDt

/-- No two rows share a group (`Grupo`) and a period: the
`['Grupo', 'mes_ano_dt']` sort key has no ties. -/
abbrev distinctGM (df : List Row) : Prop :=
  df.Pairwise fun a b => a.base.grupo = b.base.grupo → a.base.mesAnoDt ≠ b.base.mesAnoDt

/-- Claim C8 as stated: after the two calls, rows matched by their (fully
discriminating) natural key — here the whole base record — carry identical
balance columns. -/
abbrev balancesMatchByKey (df df' : List Row) : Prop :=
  ∀ r ∈ calculate_cumsums df, ∀ r' ∈ calculate_cumsums df', r.base = r'.base → r = r'

/-- Closed-form value of `'Estoque Total por Produto'` over a base multiset. -/
def balETP (B : List Base) (b : Base) : Int :=
  ((B.filter fun s => s.descricao = b.descricao ∧ s.mesAnoDt ≤ b.mesAnoDt).map
    Base.diferenca).sum

/-- Closed-form value of `'Estoque por Grupo'` over a base multiset. -/
def balEG (B : List Base) (b : Base) : Int :=
  ((B.filter fun s => s.grupo = b.grupo ∧ s.mesAnoDt ≤ b.mesAnoDt).map Base.diferenca).sum

/-- Closed-form value of `'Sell-in por Grupo'` over a base multiset. -/
def balSIG (B : List Base) (b : Base) : Int :=
  ((B.filter fun s => s.grupo = b.grupo ∧ s.mesAnoDt ≤ b.mesAnoDt).map Base.sellIn).sum

/-- Closed-form value of `'Sell-out por Grupo'` over a base multiset. -/
def balSOG (B : List Base) (b : Base) : Int :=
  ((B.filter fun s => s.grupo = b.grupo ∧ s.mesAnoDt ≤ b.mesAnoDt).map Base.sellOut).sum

/-- Closed-form value of `'Estoque por Produto e Grupo'` over a base multiset. -/
def balEPG (B : List Base) (b : Base) : Int :=
  ((B.filter fun s =>
      (s.descricao, s.grupo) = (b.descricao, b.grupo) ∧ s.mesAnoDt ≤ b.mesAnoDt).map
    Base.diferenca).sum

/-- The fully determined output row for a base record, when no sort key has
ties. -/
def rowFor (B : List Base) (b : Base) : Row :=
  ⟨b, some (balETP B b), some (balEG B b), some (balSIG B b), some (balSOG B b),
    some (balEPG B b)⟩

/-- Base-level comparison of `sort_values(['Descrição', 'Grupo', 'mes_ano_dt'])`. -/
def leBaseDGM : Base → Base → Bool := keyLe koSSN sortKeyDGM

/-- Canonical form of the output when no sort key has ties: the base records
in `['Descrição', 'Grupo', 'mes_ano_dt']` order, each with all five balance
columns given by their closed-form sums. -/
def canon (df : List Row) : List Row :=
  (insertionSortB leBaseDGM (df.map Row.base)).map (rowFor (df.map Row.base))

/-- Two tie rows (same product, group and period) with different deltas;
their group names order them differently than their insertion order. -/
def rowPB : Row := { base := ⟨"B", "P", 10, 4, 1, 1⟩ }

def rowPA : Row := { base := ⟨"A", "P", 20, 5, 2, 1⟩ }

/-- A row duplicated verbatim (a period tie inside every partition). -/
def rowDup : Row := { base := ⟨"A", "P", 3, 2, 1, 1⟩ }

/-- A small tie-free frame: periods are distinct inside every product
partition and every group partition. -/
def witA : Row := { base := ⟨"X", "A", 12, 2, 10, 1⟩ }

def witB : Row := { base := ⟨"X", "A", 1, 4, -3, 2⟩ }

def witC : Row := { base := ⟨"Y", "B", 6, 1, 5, 1⟩ }

def witDf : List Row := [witA, witB, witC]


/-! ### Untyped frame model (for the schema-error and column-name claims)

A pandas DataFrame has a frame-level column list; accessing an absent column
(`df[col]`, `sort_values(by=...)`, `groupby(keys)`) raises a `KeyError`, the
failure the spec names `SchemaError`.  Here a frame carries its column list
explicitly, rows are association lists from column name to value, and every
column access is `Except`-valued. -/

inductive Value where
  | int : Int → Value
  | str : String → Value
  | date : Nat → Value
deriving DecidableEq

/-- An untyped frame: column names plus rows keyed by column name. -/
structure DFU where
  cols : List String
  rows : List (List (String × Value))
deriving DecidableEq

/-- The spec's `SchemaError`: a required column is missing or of the wrong
type (pandas `KeyError`/`TypeError`/`ValueError`). -/
structure SchemaError where
  msg : String
deriving DecidableEq

def getVal (row : List (String × Value)) (c : String) : Except SchemaError Value :=
  match row.lookup c with
  | some v => Except.ok v
  | none => Except.error ⟨"KeyError: " ++ c⟩

def asInt : Value → Except SchemaError Int
  | Value.int i => Except.ok i
  | _ => Except.error ⟨"TypeError: non-numeric column"⟩

/-- Total comparison on cell values (within a column all values share one
constructor, so the cross-constructor cases are arbitrary). -/
def valueLtB : Value → Value → Bool
  | Value.int a, Value.int b => decide (a < b)
  | Value.str a, Value.str b => charsLtB a.data b.data
  | Value.date a, Value.date b => decide (a < b)
  | Value.int _, _ => true
  | Value.str _, Value.date _ => true
  | _, _ => false

/-- Lexicographic comparison of two rows on the `by` columns of
`sort_values`. -/
def rowLtB (bys : List String) (r s : List (String × Value)) : Bool :=
  match bys with
  | [] => false
  | c :: cs =>
      let a := (r.lookup c).getD (Value.int 0)
      let b := (s.lookup c).getD (Value.int 0)
      valueLtB a b || (decide (a = b) && rowLtB cs r s)

def rowLeB (bys : List String) (r s : List (String × Value)) : Bool :=
  ! rowLtB bys s r

/-- `df.sort_values(bys)`: validates the key columns against the frame's
columns (pandas raises `KeyError` before sorting), then stable-sorts. -/
def sort_values_u (df : DFU) (bys : List String) : Except SchemaError DFU :=
  if bys.all (fun c => df.cols.contains c) then
    Except.ok { df with rows := insertionSortB (rowLeB bys) df.rows }
  else Except.error ⟨"KeyError: sort_values"⟩

def setCol (row : List (String × Value)) (c : String) (v : Value) : List (String × Value) :=
  (row.filter fun p => p.1 ≠ c) ++ [(c, v)]

def colInts (vc : String) : List (List (String × Value)) → Except SchemaError (List Int)
  | [] => Except.ok []
  | r :: rs =>
      match getVal r vc with
      | Except.error e => Except.error e
      | Except.ok v =>
          match asInt v with
          | Except.error e => Except.error e
          | Except.ok i =>
              match colInts vc rs with
              | Except.error e => Except.error e
              | Except.ok is => Except.ok (i :: is)

/-- Positional per-group running sums over (group key, value) pairs. -/
def cumsumInts {κ : Type} [DecidableEq κ] (pairs : List (κ × Int)) : List Int :=
  (cumsumBy Prod.fst Prod.snd (fun p v => (p.1, v)) pairs).map Prod.snd

/-- `df[newCol] = df.groupby(ks)[vc].cumsum()`: validates the group and
value columns, computes per-group running sums in frame order, and attaches
the result (creating the column if absent, overwriting otherwise). -/
def groupby_cumsum_u (df : DFU) (ks : List String) (vc : String) (newCol : String) :
    Except SchemaError DFU :=
  if ks.all (fun c => df.cols.contains c) && df.cols.contains vc then
    match colInts vc df.rows with
    | Except.error e => Except.error e
    | Except.ok ints =>
        let keys := df.rows.map fun r => ks.map fun c => r.lookup c
        let cs := cumsumInts (keys.zip ints)
        Except.ok
          { cols := if df.cols.contains newCol then df.cols else df.cols ++ [newCol],
            rows := (df.rows.zip cs).map fun p => setCol p.1 newCol (Value.int p.2) }
  else Except.error ⟨"KeyError: groupby"⟩

def andThen (x : Except SchemaError DFU) (f : DFU → Except SchemaError DFU) :
    Except SchemaError DFU :=
  match x with
  | Except.error e => Except.error e
  | Except.ok d => f d

/-- `calculate_cumsums` over the untyped frame model (lines 77-105), with
each pass's possible `KeyError` made explicit. -/
def calculate_cumsums_u (df : DFU) : Except SchemaError DFU :=
  andThen (sort_values_u df ["Descrição", "mes_ano_dt"]) fun d =>
  andThen (groupby_cumsum_u d ["Descrição"] "Diferença" "Estoque Total por Produto") fun d =>
  andThen (sort_values_u d ["Grupo", "mes_ano_dt"]) fun d =>
  andThen (groupby_cumsum_u d ["Grupo"] "Diferença" "Estoque por Grupo") fun d =>
  andThen (sort_values_u d ["Grupo", "mes_ano_dt"]) fun d =>
  andThen (groupby_cumsum_u d ["Grupo"] "Sell-in" "Sell-in por Grupo") fun d =>
  andThen (sort_values_u d ["Grupo", "mes_ano_dt"]) fun d =>
  andThen (groupby_cumsum_u d ["Grupo"] "Sell-out" "Sell-out por Grupo") fun d =>
  andThen (sort_values_u d ["Descrição", "Grupo", "mes_ano_dt"]) fun d =>
  andThen (groupby_cumsum_u d ["Descrição", "Grupo"] "Diferença" "Estoque por Produto e Grupo")
    fun d => Except.ok d

/-! ### `load_data` model (lines 24-73)

`load_data` reads the pickle (local file or upload), converts `mes_ano` to a
date column, projects eight columns and renames them; every failure inside
the `try` is caught and an empty frame is returned.  The pickle results are
environment inputs. -/

/-- The eight selected raw columns (lines 43-52), with the derived
`mes_ano_dt` in place of `mes_ano`. -/
def rawSelect : List String :=
  ["cliente_nome", "cnpj_matriz", "produto_codigo", "produto_descricao",
    "qtd_vendida_para_farmacia", "qtd_vendida_para_cliente", "diferenca", "mes_ano_dt"]

/-- The renamed columns (lines 55-64). -/
def loadSchema : List String :=
  ["Grupo", "CNPJ", "Produto", "Descrição", "Sell-in", "Sell-out", "Diferença", "mes_ano_dt"]

/-- `pd.to_datetime(_, format='%m-%Y')`: month and year separated by a
hyphen, month in 1..12. -/
def parseMonthYear (s : String) : Option Nat :=
  match s.splitOn "-" with
  | [m, y] =>
      match m.toNat?, y.toNat? with
      | some mn, some yn => if 1 ≤ mn ∧ mn ≤ 12 then some (yn * 12 + (mn - 1)) else none
      | _, _ => none
  | _ => none

/-- Line 40 applied to each row: read `mes_ano`, parse it, store
`mes_ano_dt`. -/
def convertDates : List (List (String × Value)) →
    Except SchemaError (List (List (String × Value)))
  | [] => Except.ok []
  | r :: rs =>
      match getVal r "mes_ano" with
      | Except.error e => Except.error e
      | Except.ok (Value.str s) =>
          match parseMonthYear s with
          | some n =>
              match convertDates rs with
              | Except.error e => Except.error e
              | Except.ok rest => Except.ok (setCol r "mes_ano_dt" (Value.date n) :: rest)
          | none => Except.error ⟨"ValueError: time data does not match format"⟩
      | Except.ok _ => Except.error ⟨"TypeError: to_datetime"⟩

/-- Lines 43-64: select the eight columns (pandas raises `KeyError` when one
is absent) and rename them to `loadSchema`. -/
def selectRename (df : DFU) : Except SchemaError DFU :=
  if rawSelect.all (fun c => df.cols.contains c) then
    Except.ok
      { cols := loadSchema,
        rows := df.rows.map fun r =>
          (rawSelect.zip loadSchema).map fun p => (p.2, (r.lookup p.1).getD (Value.int 0)) }
  else Except.error ⟨"KeyError: column selection"⟩

/-- Lines 39-66: date conversion then selection/renaming.  The `mes_ano`
access itself requires the column to exist in the frame. -/
def convert (df : DFU) : Except SchemaError DFU :=
  if df.cols.contains "mes_ano" then
    match convertDates df.rows with
    | Except.error e => Except.error e
    | Except.ok rows' =>
        selectRename
          { cols := if df.cols.contains "mes_ano_dt" then df.cols
              else df.cols ++ ["mes_ano_dt"],
            rows := rows' }
  else Except.error ⟨"KeyError: mes_ano"⟩

def emptyDF : DFU := ⟨[], []⟩

/-- Environment of one `load_data` call: whether the local pickle exists,
what unpickling it yields, and whether/what the user uploaded. -/
structure LoadEnv where
  localExists : Bool
  localPickle : Except SchemaError DFU
  uploaded : Option (Except SchemaError DFU)

/-- The body of `load_data`'s `try` block (lines 27-66): local file if it
exists, otherwise the upload (returning an empty frame when there is none),
then conversion. -/
def load_data_attempt (env : LoadEnv) : Except SchemaError DFU :=
  if env.localExists then andThen env.localPickle convert
  else
    match env.uploaded with
    | none => Except.ok emptyDF
    | some u => andThen u convert

/-- `load_data` (lines 24-73): every exception from the attempt is caught
(lines 68-73) and an empty frame is returned. -/
def load_data (env : LoadEnv) : DFU :=
  match load_data_attempt env with
  | Except.ok df => df
  | Except.error _ => emptyDF


/-- An empty frame carrying the loaded schema. -/
def dfLoad : DFU := ⟨loadSchema, []⟩

/-- Its image under `calculate_cumsums_u`: the loaded columns plus the five
balance columns. -/
def dfLoadOut : DFU :=
  ⟨loadSchema ++ ["Estoque Total por Produto", "Estoque por Grupo", "Sell-in por Grupo",
    "Sell-out por Grupo", "Estoque por Produto e Grupo"], []⟩

/-- Projection to the base columns and the `'Estoque Total por Produto'` column. -/
def projETP (r : Row) : Base × Option Int := (r.base, r.estoqueTotalPorProduto)

/-- Projection to the base columns and the `'Estoque por Grupo'` column. -/
def projEG (r : Row) : Base × Option Int := (r.base, r.estoquePorGrupo)

/-- Projection to the base columns and the `'Sell-in por Grupo'` column. -/
def projSIG (r : Row) : Base × Option Int := (r.base, r.sellInPorGrupo)

/-- Projection to the base columns and the `'Sell-out por Grupo'` column. -/
def projSOG (r : Row) : Base × Option Int := (r.base, r.sellOutPorGrupo)


/-- Keep only the base columns (all five computed columns reset). -/
def reset0 (r : Row) : Row := { base := r.base }

/-- Keep the base columns and the pass-1 column. -/
def reset1 (r : Row) : Row :=
  { base := r.base, estoqueTotalPorProduto := r.estoqueTotalPorProduto }

/-- Keep the base columns and the pass-1 and pass-2 columns. -/
def reset2 (r : Row) : Row :=
  { base := r.base, estoqueTotalPorProduto := r.estoqueTotalPorProduto,
    estoquePorGrupo := r.estoquePorGrupo }

/-- Keep the base columns and the columns of passes 1-3. -/
def reset3 (r : Row) : Row :=
  { base := r.base, estoqueTotalPorProduto := r.estoqueTotalPorProduto,
    estoquePorGrupo := r.estoquePorGrupo, sellInPorGrupo := r.sellInPorGrupo }

/-- Keep the base columns and the columns of passes 1-4. -/
def reset4 (r : Row) : Row :=
  { base := r.base, estoqueTotalPorProduto := r.estoqueTotalPorProduto,
    estoquePorGrupo := r.estoquePorGrupo, sellInPorGrupo := r.sellInPorGrupo,
    sellOutPorGrupo := r.sellOutPorGrupo }

/-- Two rows sharing group `"X"` and period 1 but with different products: a
group-period tie with no product-period tie. -/
def witE : Row := { base := ⟨"X", "A", 5, 1, 4, 1⟩ }

def witF : Row := { base := ⟨"X", "B", 2, 3, -1, 1⟩ }

def witDf2 : List Row := [witE, witF]

/-! ### Order laws for the concrete key orders -/

theorem natKO_laws : natKO.Laws where
  lt_trans a b c h1 h2 := by
    simp only [natKO, decide_eq_true_eq] at *; omega
  lt_asymm a b h1 h2 := by
    simp only [natKO, decide_eq_true_eq] at *; omega
  eq_of_not_lt a b h1 h2 := by
    simp only [natKO, decide_eq_false_iff_not, not_lt] at *; omega

theorem charLtB_trans (a b c : Char) (h1 : charLtB a b = true) (h2 : charLtB b c = true) :
    charLtB a c = true := by
  simp only [charLtB, decide_eq_true_eq] at *; omega

theorem charLtB_asymm (a b : Char) (h1 : charLtB a b = true) (h2 : charLtB b a = true) : False := by
  simp only [charLtB, decide_eq_true_eq] at *; omega

theorem char_eq_of_not_ltB (a b : Char) (h1 : charLtB a b = false) (h2 : charLtB b a = false) :
    a = b := by
  simp only [charLtB, decide_eq_false_iff_not, not_lt] at *
  have htn : a.toNat = b.toNat := le_antisymm h2 h1
  rw [← Char.ofNat_toNat a, ← Char.ofNat_toNat b, htn]

theorem charsLtB_trans : ∀ a b c : List Char, charsLtB a b = true → charsLtB b c = true →
    charsLtB a c = true
  | [], [], _, h1, _ => by simp [charsLtB] at h1
  | [], _ :: _, [], _, h2 => by simp [charsLtB] at h2
  | [], _ :: _, _ :: _, _, _ => by simp [charsLtB]
  | _ :: _, [], _, h1, _ => by simp [charsLtB] at h1
  | _ :: _, _ :: _, [], _, h2 => by simp [charsLtB] at h2
  | a :: as, b :: bs, c :: cs, h1, h2 => by
    simp only [charsLtB, Bool.or_eq_true, Bool.and_eq_true, decide_eq_true_eq] at *
    rcases h1 with h1 | ⟨rfl, h1⟩
    · rcases h2 with h2 | ⟨rfl, h2⟩
      · exact Or.inl (charLtB_trans _ _ _ h1 h2)
      · exact Or.inl h1
    · rcases h2 with h2 | ⟨rfl, h2⟩
      · exact Or.inl h2
      · exact Or.inr ⟨rfl, charsLtB_trans as bs cs h1 h2⟩

theorem charsLtB_asymm : ∀ a b : List Char, charsLtB a b = true → charsLtB b a = true → False
  | [], [], h1, _ => by simp [charsLtB] at h1
  | [], _ :: _, _, h2 => by simp [charsLtB] at h2
  | _ :: _, [], h1, _ => by simp [charsLtB] at h1
  | a :: as, b :: bs, h1, h2 => by
    simp only [charsLtB, Bool.or_eq_true, Bool.and_eq_true, decide_eq_true_eq] at *
    rcases h1 with h1 | ⟨rfl, h1⟩
    · rcases h2 with h2 | ⟨rfl, h2⟩
      · exact charLtB_asymm _ _ h1 h2
      · exact charLtB_asymm _ _ h1 h1
    · rcases h2 with h2 | ⟨-, h2⟩
      · exact charLtB_asymm _ _ h2 h2
      · exact charsLtB_asymm as bs h1 h2

theorem chars_eq_of_not_ltB : ∀ a b : List Char, charsLtB a b = false → charsLtB b a = false →
    a = b
  | [], [], _, _ => rfl
  | [], _ :: _, h1, _ => by simp [charsLtB] at h1
  | _ :: _, [], _, h2 => by simp [charsLtB] at h2
  | a :: as, b :: bs, h1, h2 => by
    simp only [charsLtB, Bool.or_eq_false_iff, Bool.and_eq_false_iff] at h1 h2
    have hab : charLtB a b = false := h1.1
    have hba : charLtB b a = false := h2.1
    have : a = b := char_eq_of_not_ltB a b hab hba
    subst this
    rcases h1.2 with h1' | h1'
    · simp at h1'
    · rcases h2.2 with h2' | h2'
      · simp at h2'
      · rw [chars_eq_of_not_ltB as bs h1' h2']

theorem strKO_laws : strKO.Laws where
  lt_trans a b c h1 h2 := charsLtB_trans _ _ _ h1 h2
  lt_asymm a b h1 h2 := charsLtB_asymm _ _ h1 h2
  eq_of_not_lt a b h1 h2 := by
    have h := chars_eq_of_not_ltB _ _ h1 h2
    cases a; cases b; exact congrArg String.mk h

theorem prodKO_laws {κ₁ κ₂ : Type} [DecidableEq κ₁] {ka : KeyOrder κ₁} {kb : KeyOrder κ₂}
    (la : ka.Laws) (lb : kb.Laws) : (prodKO ka kb).Laws where
  lt_trans p q r h1 h2 := by
    simp only [prodKO, Bool.or_eq_true, Bool.and_eq_true, decide_eq_true_eq] at *
    rcases h1 with h1 | ⟨e1, h1⟩
    · rcases h2 with h2 | ⟨e2, h2⟩
      · exact Or.inl (la.lt_trans _ _ _ h1 h2)
      · exact Or.inl (e2 ▸ h1)
    · rcases h2 with h2 | ⟨e2, h2⟩
      · exact Or.inl (e1 ▸ h2)
      · exact Or.inr ⟨e1.trans e2, lb.lt_trans _ _ _ h1 h2⟩
  lt_asymm p q h1 h2 := by
    simp only [prodKO, Bool.or_eq_true, Bool.and_eq_true, decide_eq_true_eq] at *
    rcases h1 with h1 | ⟨e1, h1⟩
    · rcases h2 with h2 | ⟨e2, h2⟩
      · exact la.lt_asymm _ _ h1 h2
      · exact la.lt_asymm _ _ h1 (e2 ▸ h1)
    · rcases h2 with h2 | ⟨e2, h2⟩
      · exact la.lt_asymm _ _ h2 (e1 ▸ h2)
      · exact lb.lt_asymm _ _ h1 h2
  eq_of_not_lt p q h1 h2 := by
    simp only [prodKO, Bool.or_eq_false_iff, Bool.and_eq_false_iff,
      decide_eq_false_iff_not] at h1 h2
    have e1 : p.1 = q.1 := la.eq_of_not_lt _ _ h1.1 h2.1
    rcases h1.2 with h1' | h1'
    · exact absurd e1 h1'
    · rcases h2.2 with h2' | h2'
      · exact absurd e1.symm h2'
      · exact Prod.ext e1 (lb.eq_of_not_lt _ _ h1' h2')

theorem koSN_laws : koSN.Laws := prodKO_laws strKO_laws natKO_laws

theorem koSS_laws : koSS.Laws := prodKO_laws strKO_laws strKO_laws

theorem koSSN_laws : koSSN.Laws := prodKO_laws koSS_laws natKO_laws

/-! ### Sorting lemmas -/

theorem perm_orderedInsertB {α : Type} (le : α → α → Bool) (a : α) :
    ∀ l : List α, (orderedInsertB le a l).Perm (a :: l)
  | [] => List.Perm.refl _
  | b :: l => by
    unfold orderedInsertB
    by_cases h : le a b
    · simp [h]
    · simp only [h, if_false, Bool.false_eq_true]
      exact ((perm_orderedInsertB le a l).cons b).trans (List.Perm.swap a b l)

theorem perm_insertionSortB {α : Type} (le : α → α → Bool) :
    ∀ l : List α, (insertionSortB le l).Perm l
  | [] => List.Perm.refl _
  | b :: l =>
    (perm_orderedInsertB le b (insertionSortB le l)).trans ((perm_insertionSortB le l).cons b)

theorem mem_orderedInsertB {α : Type} (le : α → α → Bool) (a x : α) (l : List α) :
    x ∈ orderedInsertB le a l ↔ x = a ∨ x ∈ l := by
  rw [(perm_orderedInsertB le a l).mem_iff, List.mem_cons]

theorem keyLe_total {α κ : Type} {ko : KeyOrder κ} (laws : ko.Laws) (f : α → κ) (a b : α)
    (h : keyLe ko f a b = false) : keyLe ko f b a = true := by
  have hba : ko.ltB (f b) (f a) = true := by
    revert h; unfold keyLe; cases ko.ltB (f b) (f a) <;> simp
  have hab : ko.ltB (f a) (f b) = false := by
    cases hab : ko.ltB (f a) (f b)
    · rfl
    · exact (laws.lt_asymm _ _ hab hba).elim
  unfold keyLe
  rw [hab]
  rfl

theorem keyLe_trans {α κ : Type} {ko : KeyOrder κ} (laws : ko.Laws) (f : α → κ) (a b c : α)
    (h1 : keyLe ko f a b = true) (h2 : keyLe ko f b c = true) : keyLe ko f a c = true := by
  simp only [keyLe, Bool.not_eq_true'] at *
  cases hca : ko.ltB (f c) (f a)
  · rfl
  · exfalso
    cases hcb : ko.ltB (f c) (f b)
    · cases hbc : ko.ltB (f b) (f c)
      · have : f b = f c := laws.eq_of_not_lt _ _ hbc hcb
        rw [← this] at hca
        exact absurd hca (by rw [h1]; exact Bool.false_ne_true)
      · exact absurd (laws.lt_trans _ _ _ hbc hca) (by rw [h1]; exact Bool.false_ne_true)
    · exact absurd hcb (by rw [h2]; exact Bool.false_ne_true)

theorem sorted_orderedInsertB {α κ : Type} {ko : KeyOrder κ} (laws : ko.Laws) (f : α → κ)
    (a : α) : ∀ l : List α, SortedB ko f l → SortedB ko f (orderedInsertB (keyLe ko f) a l)
  | [], _ => List.pairwise_singleton _ _
  | b :: l, hs => by
    unfold orderedInsertB
    cases h : keyLe ko f a b
    · simp only [Bool.false_eq_true, if_false]
      have hba : keyLe ko f b a = true := keyLe_total laws f a b h
      refine List.Pairwise.cons ?_ (sorted_orderedInsertB laws f a l hs.of_cons)
      intro x hx
      rcases (mem_orderedInsertB _ a x l).mp hx with rfl | hx
      · exact hba
      · exact List.rel_of_pairwise_cons hs hx
    · simp only [if_true]
      refine List.Pairwise.cons ?_ hs
      intro x hx
      rcases List.mem_cons.mp hx with rfl | hx
      · exact h
      · exact keyLe_trans laws f a b x h (List.rel_of_pairwise_cons hs hx)

theorem sorted_insertionSortB {α κ : Type} {ko : KeyOrder κ} (laws : ko.Laws) (f : α → κ) :
    ∀ l : List α, SortedB ko f (insertionSortB (keyLe ko f) l)
  | [] => List.Pairwise.nil
  | b :: l => sorted_orderedInsertB laws f b _ (sorted_insertionSortB laws f l)

theorem filter_orderedInsertB_neg {α : Type} (le : α → α → Bool) (p : α → Bool) (a : α)
    (hp : p a = false) : ∀ l : List α, (orderedInsertB le a l).filter p = l.filter p
  | [] => by simp [orderedInsertB, hp]
  | b :: l => by
    unfold orderedInsertB
    cases h : le a b
    · simp only [Bool.false_eq_true, if_false, List.filter_cons]
      rw [filter_orderedInsertB_neg le p a hp l]
    · simp [List.filter_cons, hp]

theorem filter_orderedInsertB_pos {α : Type} (le : α → α → Bool) (p : α → Bool) (a : α)
    (hp : p a = true) : ∀ l : List α, (∀ b ∈ l, p b = true → le a b = true) →
      (orderedInsertB le a l).filter p = a :: l.filter p
  | [], _ => by simp [orderedInsertB, hp]
  | b :: l, hle => by
    unfold orderedInsertB
    cases h : le a b
    · have hpb : p b = false := by
        cases hpb : p b
        · rfl
        · rw [hle b (List.mem_cons_self b l) hpb] at h
          exact absurd h (by simp)
      simp only [Bool.false_eq_true, if_false, List.filter_cons, hpb]
      exact filter_orderedInsertB_pos le p a hp l fun c hc hpc =>
        hle c (List.mem_cons_of_mem b hc) hpc
    · simp [List.filter_cons, hp]

theorem filter_insertionSortB {α : Type} (le : α → α → Bool) (p : α → Bool)
    (hmut : ∀ a b, p a = true → p b = true → le a b = true) :
    ∀ l : List α, (insertionSortB le l).filter p = l.filter p
  | [] => rfl
  | b :: l => by
    unfold insertionSortB
    cases hpb : p b
    · rw [filter_orderedInsertB_neg le p b hpb,
        filter_insertionSortB le p hmut l, List.filter_cons,
        if_neg (by simp [hpb])]
    · rw [filter_orderedInsertB_pos le p b hpb _ fun c _ hpc => hmut b c hpb hpc,
        filter_insertionSortB le p hmut l, List.filter_cons, if_pos (by simp [hpb])]

theorem sorted_perm_unique {α κ : Type} {ko : KeyOrder κ} (laws : ko.Laws) (f : α → κ) :
    ∀ {l₁ l₂ : List α}, l₁.Perm l₂ → SortedB ko f l₁ → SortedB ko f l₂ →
      l₁.Pairwise (fun a b => f a ≠ f b) → l₁ = l₂
  | [], l₂, hp, _, _, _ => (hp.symm.eq_nil).symm
  | a :: t₁, [], hp, _, _, _ => absurd hp.eq_nil (by simp)
  | a :: t₁, b :: t₂, hp, hs₁, hs₂, hd => by
    have hab : a = b := by
      by_contra hne
      have ha2 : a ∈ t₂ := by
        have := hp.mem_iff.mp (List.mem_cons_self a t₁)
        rcases List.mem_cons.mp this with h | h
        · exact absurd h hne
        · exact h
      have hb1 : b ∈ t₁ := by
        have := hp.mem_iff.mpr (List.mem_cons_self b t₂)
        rcases List.mem_cons.mp this with h | h
        · exact absurd h.symm hne
        · exact h
      have h1 : keyLe ko f a b = true := List.rel_of_pairwise_cons hs₁ hb1
      have h2 : keyLe ko f b a = true := List.rel_of_pairwise_cons hs₂ ha2
      simp only [keyLe, Bool.not_eq_true'] at h1 h2
      exact absurd (laws.eq_of_not_lt _ _ h2 h1) (List.rel_of_pairwise_cons hd hb1)
    subst hab
    rw [sorted_perm_unique laws f hp.cons_inv hs₁.of_cons hs₂.of_cons hd.of_cons]

/-! ### Running-sum lemmas -/

theorem length_cumsumAux {α κ : Type} [DecidableEq κ] (key : α → κ) (val : α → Int)
    (set : α → Int → α) : ∀ (prev l : List α), (cumsumAux key val set prev l).length = l.length
  | _, [] => rfl
  | prev, r :: rs => by
    simp only [cumsumAux, List.length_cons]
    rw [length_cumsumAux key val set (prev ++ [r]) rs]

theorem map_cumsumAux {α β κ : Type} [DecidableEq κ] (key : α → κ) (val : α → Int)
    (set : α → Int → α) (g : α → β) (hg : ∀ r v, g (set r v) = g r) :
    ∀ (prev l : List α), (cumsumAux key val set prev l).map g = l.map g
  | _, [] => rfl
  | prev, r :: rs => by
    simp only [cumsumAux, List.map_cons, hg]
    rw [map_cumsumAux key val set g hg (prev ++ [r]) rs]

theorem mem_cumsumAux {α κ : Type} [DecidableEq κ] (key : α → κ) (val : α → Int)
    (set : α → Int → α) :
    ∀ (prev l : List α) (o : α), o ∈ cumsumAux key val set prev l →
      ∃ l₁ r l₂, l = l₁ ++ r :: l₂ ∧
        o = set r (((((prev ++ l₁).filter fun s => key s = key r).map val).sum) + val r)
  | _, [], _, ho => absurd ho (List.not_mem_nil _)
  | prev, r :: rs, o, ho => by
    rcases List.mem_cons.mp ho with rfl | ho
    · exact ⟨[], r, rs, by simp⟩
    · rcases mem_cumsumAux key val set (prev ++ [r]) rs o ho with ⟨l₁, r', l₂, hrs, hval⟩
      exact ⟨r :: l₁, r', l₂, by rw [hrs]; simp, by rw [hval]; simp⟩

theorem mem_cumsumBy {α κ : Type} [DecidableEq κ] (key : α → κ) (val : α → Int)
    (set : α → Int → α) (l : List α) (o : α) (ho : o ∈ cumsumBy key val set l) :
    ∃ l₁ r l₂, l = l₁ ++ r :: l₂ ∧
      o = set r ((((l₁.filter fun s => key s = key r).map val).sum) + val r) := by
  rcases mem_cumsumAux key val set [] l o ho with ⟨l₁, r, l₂, hl, hval⟩
  exact ⟨l₁, r, l₂, hl, by simpa using hval⟩

theorem getLast_filter_cumsumAux {α κ : Type} [DecidableEq κ] (key : α → κ) (val : α → Int)
    (set : α → Int → α) (get : α → Option Int)
    (hkey : ∀ r v, key (set r v) = key r) (hget : ∀ r v, get (set r v) = some v) (k : κ) :
    ∀ (prev l : List α) (o : α),
      ((cumsumAux key val set prev l).filter fun s => key s = k).getLast? = some o →
      get o = some ((((prev ++ l).filter fun s => key s = k).map val).sum)
  | _, [], _, ho => by simp [cumsumAux] at ho
  | prev, r :: rs, o, ho => by
    rw [cumsumAux, List.filter_cons] at ho
    by_cases hk : key r = k
    · rw [if_pos (by simp [hkey, hk])] at ho
      cases hrest : (cumsumAux key val set (prev ++ [r]) rs).filter fun s => decide (key s = k)
      · rw [hrest, List.getLast?_singleton] at ho
        have ho' : o = set r ((((prev.filter fun s => key s = key r).map val).sum) + val r) :=
          (Option.some.injEq _ _ ▸ ho).symm
        have hrs : rs.filter (fun s => decide (key s = k)) = [] := by
          rw [List.filter_eq_nil_iff] at hrest ⊢
          intro x hx
          have hxk : key x ∈ (cumsumAux key val set (prev ++ [r]) rs).map key := by
            rw [map_cumsumAux key val set key hkey]
            exact List.mem_map_of_mem key hx
          rcases List.mem_map.mp hxk with ⟨y, hy, hyx⟩
          have := hrest y hy
          simp only [decide_eq_true_eq] at *
          rw [← hyx]
          exact this
        rw [ho', hget]
        congr 1
        rw [List.filter_append, List.filter_cons, if_pos (by simp [hk]), hrs]
        simp only [List.map_append, List.sum_append, List.map_cons, List.sum_cons,
          List.filter_nil, List.map_nil, List.sum_nil, hk]
        omega
      · rw [hrest, List.getLast?_cons_cons, ← hrest] at ho
        have := getLast_filter_cumsumAux key val set get hkey hget k (prev ++ [r]) rs o ho
        rwa [List.append_assoc, List.singleton_append] at this
    · rw [if_neg (by simp [hkey, hk])] at ho
      have := getLast_filter_cumsumAux key val set get hkey hget k (prev ++ [r]) rs o ho
      rwa [List.append_assoc, List.singleton_append] at this

theorem getLast_filter_cumsumBy {α κ : Type} [DecidableEq κ] (key : α → κ) (val : α → Int)
    (set : α → Int → α) (get : α → Option Int)
    (hkey : ∀ r v, key (set r v) = key r) (hget : ∀ r v, get (set r v) = some v) (k : κ)
    (l : List α) (o : α)
    (ho : ((cumsumBy key val set l).filter fun s => key s = k).getLast? = some o) :
    get o = some (((l.filter fun s => key s = k).map val).sum) := by
  have := getLast_filter_cumsumAux key val set get hkey hget k [] l o ho
  simpa using this

theorem keyLe_mes_le {α κ : Type} [DecidableEq κ] {kok : KeyOrder κ} (key : α → κ)
    (mes : α → Nat) {a b : α}
    (h : keyLe (prodKO kok natKO) (fun x => (key x, mes x)) a b = true)
    (hk : key a = key b) : mes a ≤ mes b := by
  simp only [keyLe, prodKO, natKO, Bool.not_eq_true', Bool.or_eq_false_iff,
    Bool.and_eq_false_iff, decide_eq_false_iff_not] at h
  rcases h.2 with h' | h'
  · exact absurd hk.symm h'
  · simpa [not_lt] using h'

theorem cumsumBy_sorted_value {α κ : Type} [DecidableEq κ] {kok : KeyOrder κ}
    (key : α → κ) (mes : α → Nat) (val : α → Int) (set : α → Int → α) (get : α → Option Int)
    (hkey : ∀ r v, key (set r v) = key r) (hmes : ∀ r v, mes (set r v) = mes r)
    (hget : ∀ r v, get (set r v) = some v) (l : List α)
    (hs : SortedB (prodKO kok natKO) (fun x => (key x, mes x)) l)
    (hd : l.Pairwise fun a b => key a = key b → mes a ≠ mes b) :
    ∀ o ∈ cumsumBy key val set l,
      get o = some (((l.filter fun s => key s = key o ∧ mes s ≤ mes o).map val).sum) := by
  intro o ho
  rcases mem_cumsumBy key val set l o ho with ⟨l₁, r, l₂, hl, hor⟩
  subst hl
  have hko : key o = key r := by rw [hor, hkey]
  have hmo : mes o = mes r := by rw [hor, hmes]
  rw [hko, hmo, hor, hget]
  unfold SortedB at hs
  rw [List.pairwise_append] at hs hd
  rcases hs with ⟨hs₁, hs₂, hs₁₂⟩
  rcases hd with ⟨-, hd₂, -⟩
  congr 1
  have hl₂ : l₂.filter (fun s => decide (key s = key r ∧ mes s ≤ mes r)) = [] := by
    rw [List.filter_eq_nil_iff]
    intro t ht
    simp only [decide_eq_true_eq, not_and]
    intro hkt
    have hle : mes r ≤ mes t :=
      keyLe_mes_le key mes (List.rel_of_pairwise_cons hs₂ ht) hkt.symm
    have hne : mes r ≠ mes t := List.rel_of_pairwise_cons hd₂ ht hkt.symm
    omega
  have hl₁ : l₁.filter (fun s => decide (key s = key r ∧ mes s ≤ mes r))
      = l₁.filter (fun s => decide (key s = key r)) := by
    apply List.filter_congr
    intro s hsl
    by_cases hks : key s = key r
    · have hle : mes s ≤ mes r :=
        keyLe_mes_le key mes (hs₁₂ s hsl r (List.mem_cons_self r l₂)) hks
      simp [hks, hle]
    · simp [hks]
  rw [List.filter_append, List.filter_cons, if_pos (by simp), hl₁, hl₂]
  simp only [List.map_append, List.sum_append, List.map_cons, List.sum_cons,
    List.map_nil, List.sum_nil]
  omega

theorem filter_map_sum_eq_of_map_perm {α β : Type} (g : α → β) (p : β → Bool) (v : β → Int)
    {l₁ l₂ : List α} (h : (l₁.map g).Perm (l₂.map g)) :
    ((l₁.filter fun a => p (g a)).map fun a => v (g a)).sum
      = ((l₂.filter fun a => p (g a)).map fun a => v (g a)).sum := by
  have e : ∀ l : List α,
      ((l.filter fun a => p (g a)).map fun a => v (g a)) = ((l.map g).filter p).map v := by
    intro l
    rw [List.filter_map, List.map_map]
    rfl
  rw [e l₁, e l₂]
  exact ((h.filter p).map v).sum_eq

/-! ### Pass-level lemmas -/

theorem map_sortCumsum_perm {β κ : Type} [DecidableEq κ] (key : Row → κ) (val : Row → Int)
    (set : Row → Int → Row) (le : Row → Row → Bool) (g : Row → β)
    (hg : ∀ r v, g (set r v) = g r) (input : List Row) :
    ((cumsumBy key val set (insertionSortB le input)).map g).Perm (input.map g) := by
  have h1 : (cumsumBy key val set (insertionSortB le input)).map g
      = (insertionSortB le input).map g :=
    map_cumsumAux key val set g hg [] _
  rw [h1]
  exact (perm_insertionSortB le input).map g

theorem map_base_pass1_perm (df : List Row) :
    ((pass1 df).map Row.base).Perm (df.map Row.base) :=
  map_sortCumsum_perm keyD valDif (fun r v => { r with estoqueTotalPorProduto := some v }) leDM Row.base (fun _ _ => rfl) df

theorem map_base_pass2_perm (df : List Row) :
    ((pass2 df).map Row.base).Perm ((pass1 df).map Row.base) :=
  map_sortCumsum_perm keyG valDif (fun r v => { r with estoquePorGrupo := some v }) leGM Row.base (fun _ _ => rfl) (pass1 df)

theorem map_base_pass3_perm (df : List Row) :
    ((pass3 df).map Row.base).Perm ((pass2 df).map Row.base) :=
  map_sortCumsum_perm keyG valSI (fun r v => { r with sellInPorGrupo := some v }) leGM Row.base (fun _ _ => rfl) (pass2 df)

theorem map_base_pass4_perm (df : List Row) :
    ((pass4 df).map Row.base).Perm ((pass3 df).map Row.base) :=
  map_sortCumsum_perm keyG valSO (fun r v => { r with sellOutPorGrupo := some v }) leGM Row.base (fun _ _ => rfl) (pass3 df)

theorem map_base_pass5_perm (df : List Row) :
    ((pass5 df).map Row.base).Perm ((pass4 df).map Row.base) :=
  map_sortCumsum_perm keyDG valDif (fun r v => { r with estoquePorProdutoEGrupo := some v }) leDGM Row.base (fun _ _ => rfl) (pass4 df)

theorem map_base_calc_perm (df : List Row) :
    ((calculate_cumsums df).map Row.base).Perm (df.map Row.base) :=
  ((((map_base_pass5_perm df).trans (map_base_pass4_perm df)).trans
    (map_base_pass3_perm df)).trans (map_base_pass2_perm df)).trans (map_base_pass1_perm df)

theorem map_projETP_calc_perm (df : List Row) :
    ((calculate_cumsums df).map projETP).Perm ((pass1 df).map projETP) :=
  (((map_sortCumsum_perm keyDG valDif (fun r v => { r with estoquePorProdutoEGrupo := some v }) leDGM projETP (fun _ _ => rfl) (pass4 df)).trans
    (map_sortCumsum_perm keyG valSO (fun r v => { r with sellOutPorGrupo := some v }) leGM projETP (fun _ _ => rfl) (pass3 df))).trans
    (map_sortCumsum_perm keyG valSI (fun r v => { r with sellInPorGrupo := some v }) leGM projETP (fun _ _ => rfl) (pass2 df))).trans
    (map_sortCumsum_perm keyG valDif (fun r v => { r with estoquePorGrupo := some v }) leGM projETP (fun _ _ => rfl) (pass1 df))

theorem map_projEG_calc_perm (df : List Row) :
    ((calculate_cumsums df).map projEG).Perm ((pass2 df).map projEG) :=
  ((map_sortCumsum_perm keyDG valDif (fun r v => { r with estoquePorProdutoEGrupo := some v }) leDGM projEG (fun _ _ => rfl) (pass4 df)).trans
    (map_sortCumsum_perm keyG valSO (fun r v => { r with sellOutPorGrupo := some v }) leGM projEG (fun _ _ => rfl) (pass3 df))).trans
    (map_sortCumsum_perm keyG valSI (fun r v => { r with sellInPorGrupo := some v }) leGM projEG (fun _ _ => rfl) (pass2 df))

theorem map_projSIG_calc_perm (df : List Row) :
    ((calculate_cumsums df).map projSIG).Perm ((pass3 df).map projSIG) :=
  (map_sortCumsum_perm keyDG valDif (fun r v => { r with estoquePorProdutoEGrupo := some v }) leDGM projSIG (fun _ _ => rfl) (pass4 df)).trans
    (map_sortCumsum_perm keyG valSO (fun r v => { r with sellOutPorGrupo := some v }) leGM projSIG (fun _ _ => rfl) (pass3 df))

theorem map_projSOG_calc_perm (df : List Row) :
    ((calculate_cumsums df).map projSOG).Perm ((pass4 df).map projSOG) :=
  map_sortCumsum_perm keyDG valDif (fun r v => { r with estoquePorProdutoEGrupo := some v }) leDGM projSOG (fun _ _ => rfl) (pass4 df)

theorem map_cumsumBy {α β κ : Type} [DecidableEq κ] (key : α → κ) (val : α → Int)
    (set : α → Int → α) (g : α → β) (hg : ∀ r v, g (set r v) = g r) (l : List α) :
    (cumsumBy key val set l).map g = l.map g :=
  map_cumsumAux key val set g hg [] l

theorem length_cumsumBy {α κ : Type} [DecidableEq κ] (key : α → κ) (val : α → Int)
    (set : α → Int → α) (l : List α) : (cumsumBy key val set l).length = l.length :=
  length_cumsumAux key val set [] l

theorem ltB_irrefl {κ : Type} {ko : KeyOrder κ} (laws : ko.Laws) (k : κ) :
    ko.ltB k k = false := by
  cases h : ko.ltB k k
  · rfl
  · exact (laws.lt_asymm _ _ h h).elim

theorem filter_map_cumsumBy {α β κ : Type} [DecidableEq κ] (key : α → κ) (val : α → Int)
    (set : α → Int → α) (g : α → β) (p : β → Bool) (hg : ∀ r v, g (set r v) = g r)
    (l : List α) :
    ((cumsumBy key val set l).filter fun a => p (g a)).map g
      = (l.filter fun a => p (g a)).map g := by
  have e : ∀ m : List α, ((m.filter fun a => p (g a)).map g) = (m.map g).filter p := by
    intro m
    have := List.filter_map g m (p := p)
    rw [this]
    rfl
  rw [e, e, map_cumsumBy key val set g hg l]

theorem filter_map_sortCumsum {β κ : Type} [DecidableEq κ] (key : Row → κ) (val : Row → Int)
    (set : Row → Int → Row) (le : Row → Row → Bool) (g : Row → β) (p : β → Bool)
    (hg : ∀ r v, g (set r v) = g r)
    (hmut : ∀ a b : Row, p (g a) = true → p (g b) = true → le a b = true) (input : List Row) :
    ((cumsumBy key val set (insertionSortB le input)).filter fun a => p (g a)).map g
      = (input.filter fun a => p (g a)).map g := by
  rw [filter_map_cumsumBy key val set g p hg,
    filter_insertionSortB le (fun a => p (g a)) (fun a b ha hb => hmut a b ha hb) input]

/-! ### Claims C3, C5, C7 -/

/-- C3: the operation is pure.  In the source, `df.copy()` (line 83) makes
`calculate_cumsums` leave its input frame unmodified, and the embedding is a
pure function, so the input list is unchanged by construction; the theorem
records the frame conditions that remain: the output has exactly the
cardinality of the input, and its rows carry exactly the input rows' base
columns (same multiset, re-ordered only by the grouping sorts). -/
theorem claim_C3_pure_same_cardinality (df : List Row) :
    (calculate_cumsums df).length = df.length
      ∧ ((calculate_cumsums df).map Row.base).Perm (df.map Row.base) := by
  refine ⟨?_, map_base_calc_perm df⟩
  have h := (map_base_calc_perm df).length_eq
  simpa using h

/-- C5: on the empty row set `calculate_cumsums` returns the empty
collection; the model is a total function, so no error is raised. -/
theorem claim_C5_empty_input : calculate_cumsums [] = [] := rfl

theorem leDM_of_tie (a b : Row) (h : tieKeyB a.base = tieKeyB b.base) : leDM a b = true := by
  have h' : a.base.descricao = b.base.descricao ∧ a.base.grupo = b.base.grupo ∧
      a.base.mesAnoDt = b.base.mesAnoDt := by
    simpa [tieKeyB, Prod.ext_iff] using h
  have e : sortKeyDM b.base = sortKeyDM a.base := by
    simp [sortKeyDM, h'.1, h'.2.2]
  have elem : leDM a b = ! koSN.ltB (sortKeyDM b.base) (sortKeyDM a.base) := rfl
  rw [elem, e, ltB_irrefl koSN_laws]
  rfl

theorem leGM_of_tie (a b : Row) (h : tieKeyB a.base = tieKeyB b.base) : leGM a b = true := by
  have h' : a.base.descricao = b.base.descricao ∧ a.base.grupo = b.base.grupo ∧
      a.base.mesAnoDt = b.base.mesAnoDt := by
    simpa [tieKeyB, Prod.ext_iff] using h
  have e : sortKeyGM b.base = sortKeyGM a.base := by
    simp [sortKeyGM, h'.2.1, h'.2.2]
  have elem : leGM a b = ! koSN.ltB (sortKeyGM b.base) (sortKeyGM a.base) := rfl
  rw [elem, e, ltB_irrefl koSN_laws]
  rfl

theorem leDGM_of_tie (a b : Row) (h : tieKeyB a.base = tieKeyB b.base) : leDGM a b = true := by
  have h' : a.base.descricao = b.base.descricao ∧ a.base.grupo = b.base.grupo ∧
      a.base.mesAnoDt = b.base.mesAnoDt := by
    simpa [tieKeyB, Prod.ext_iff] using h
  have e : sortKeyDGM b.base = sortKeyDGM a.base := by
    simp [sortKeyDGM, h'.1, h'.2.1, h'.2.2]
  have elem : leDGM a b = ! koSSN.ltB (sortKeyDGM b.base) (sortKeyDGM a.base) := rfl
  rw [elem, e, ltB_irrefl koSSN_laws]
  rfl

/-- C7: the aggregator never reorders tie rows.  All five sorts are stable
and a tie row's full key `(Descrição, Grupo, mes_ano_dt)` makes it compare
equal under each pass's sort key, so the rows of any tie class appear in the
output in exactly their input (insertion) order; the whole computation is a
pure function, so per-row sums are reproducible across runs. -/
theorem claim_C7_stable_tie_order (df : List Row) (t : String × String × Nat) :
    ((calculate_cumsums df).filter fun r => tieKeyB r.base = t).map Row.base
      = (df.filter fun r => tieKeyB r.base = t).map Row.base := by
  have hd : ∀ a b : Row, decide (tieKeyB (Row.base a) = t) = true →
      decide (tieKeyB (Row.base b) = t) = true → tieKeyB a.base = tieKeyB b.base := by
    intro a b ha hb
    simp only [decide_eq_true_eq] at ha hb
    rw [ha, hb]
  have e1 : ((pass1 df).filter fun r => decide (tieKeyB (Row.base r) = t)).map Row.base
      = (df.filter fun r => decide (tieKeyB (Row.base r) = t)).map Row.base :=
    filter_map_sortCumsum keyD valDif (fun r v => { r with estoqueTotalPorProduto := some v })
      leDM Row.base (fun b => decide (tieKeyB b = t)) (fun _ _ => rfl)
      (fun a b ha hb => leDM_of_tie a b (hd a b ha hb)) df
  have e2 : ((pass2 df).filter fun r => decide (tieKeyB (Row.base r) = t)).map Row.base
      = ((pass1 df).filter fun r => decide (tieKeyB (Row.base r) = t)).map Row.base :=
    filter_map_sortCumsum keyG valDif (fun r v => { r with estoquePorGrupo := some v })
      leGM Row.base (fun b => decide (tieKeyB b = t)) (fun _ _ => rfl)
      (fun a b ha hb => leGM_of_tie a b (hd a b ha hb)) (pass1 df)
  have e3 : ((pass3 df).filter fun r => decide (tieKeyB (Row.base r) = t)).map Row.base
      = ((pass2 df).filter fun r => decide (tieKeyB (Row.base r) = t)).map Row.base :=
    filter_map_sortCumsum keyG valSI (fun r v => { r with sellInPorGrupo := some v })
      leGM Row.base (fun b => decide (tieKeyB b = t)) (fun _ _ => rfl)
      (fun a b ha hb => leGM_of_tie a b (hd a b ha hb)) (pass2 df)
  have e4 : ((pass4 df).filter fun r => decide (tieKeyB (Row.base r) = t)).map Row.base
      = ((pass3 df).filter fun r => decide (tieKeyB (Row.base r) = t)).map Row.base :=
    filter_map_sortCumsum keyG valSO (fun r v => { r with sellOutPorGrupo := some v })
      leGM Row.base (fun b => decide (tieKeyB b = t)) (fun _ _ => rfl)
      (fun a b ha hb => leGM_of_tie a b (hd a b ha hb)) (pass3 df)
  have e5 : ((pass5 df).filter fun r => decide (tieKeyB (Row.base r) = t)).map Row.base
      = ((pass4 df).filter fun r => decide (tieKeyB (Row.base r) = t)).map Row.base :=
    filter_map_sortCumsum keyDG valDif
      (fun r v => { r with estoquePorProdutoEGrupo := some v })
      leDGM Row.base (fun b => decide (tieKeyB b = t)) (fun _ _ => rfl)
      (fun a b ha hb => leDGM_of_tie a b (hd a b ha hb)) (pass4 df)
  exact e5.trans (e4.trans (e3.trans (e2.trans e1)))

/-! ### Claim C2 -/

/-- C2: partition correctness.  For each pass of `calculate_cumsums` and
each group key value, the last row of that group in the pass's period-sorted
order (each pass list is sorted by its group key and then by period, so the
group's rows appear period-sorted) carries the arithmetic sum of the
accumulated column over all of the group's input rows.  The first four
conjuncts speak about the pass lists on which the columns are computed; the
fifth speaks about the returned frame itself. -/
theorem claim_C2_last_row_total (df : List Row) :
    (∀ (k : String) (o : Row),
        ((pass1 df).filter fun r => keyD r = k).getLast? = some o →
        o.estoqueTotalPorProduto = some (((df.filter fun r => keyD r = k).map valDif).sum))
  ∧ (∀ (k : String) (o : Row),
        ((pass2 df).filter fun r => keyG r = k).getLast? = some o →
        o.estoquePorGrupo = some (((df.filter fun r => keyG r = k).map valDif).sum))
  ∧ (∀ (k : String) (o : Row),
        ((pass3 df).filter fun r => keyG r = k).getLast? = some o →
        o.sellInPorGrupo = some (((df.filter fun r => keyG r = k).map valSI).sum))
  ∧ (∀ (k : String) (o : Row),
        ((pass4 df).filter fun r => keyG r = k).getLast? = some o →
        o.sellOutPorGrupo = some (((df.filter fun r => keyG r = k).map valSO).sum))
  ∧ (∀ (k : String × String) (o : Row),
        ((calculate_cumsums df).filter fun r => keyDG r = k).getLast? = some o →
        o.estoquePorProdutoEGrupo
          = some (((df.filter fun r => keyDG r = k).map valDif).sum)) := by
  refine ⟨?_, ?_, ?_, ?_, ?_⟩
  · intro k o ho
    have h1 := getLast_filter_cumsumBy keyD valDif
      (fun r v => { r with estoqueTotalPorProduto := some v })
      (fun r => r.estoqueTotalPorProduto) (fun _ _ => rfl) (fun _ _ => rfl) k
      (insertionSortB leDM df) o ho
    refine h1.trans ?_
    congr 1
    exact filter_map_sum_eq_of_map_perm Row.base (fun b => decide (b.descricao = k))
      Base.diferenca ((perm_insertionSortB leDM df).map Row.base)
  · intro k o ho
    have h1 := getLast_filter_cumsumBy keyG valDif
      (fun r v => { r with estoquePorGrupo := some v })
      (fun r => r.estoquePorGrupo) (fun _ _ => rfl) (fun _ _ => rfl) k
      (insertionSortB leGM (pass1 df)) o ho
    refine h1.trans ?_
    congr 1
    exact filter_map_sum_eq_of_map_perm Row.base (fun b => decide (b.grupo = k))
      Base.diferenca (((perm_insertionSortB leGM (pass1 df)).map Row.base).trans
        (map_base_pass1_perm df))
  · intro k o ho
    have h1 := getLast_filter_cumsumBy keyG valSI
      (fun r v => { r with sellInPorGrupo := some v })
      (fun r => r.sellInPorGrupo) (fun _ _ => rfl) (fun _ _ => rfl) k
      (insertionSortB leGM (pass2 df)) o ho
    refine h1.trans ?_
    congr 1
    exact filter_map_sum_eq_of_map_perm Row.base (fun b => decide (b.grupo = k))
      Base.sellIn ((((perm_insertionSortB leGM (pass2 df)).map Row.base).trans
        (map_base_pass2_perm df)).trans (map_base_pass1_perm df))
  · intro k o ho
    have h1 := getLast_filter_cumsumBy keyG valSO
      (fun r v => { r with sellOutPorGrupo := some v })
      (fun r => r.sellOutPorGrupo) (fun _ _ => rfl) (fun _ _ => rfl) k
      (insertionSortB leGM (pass3 df)) o ho
    refine h1.trans ?_
    congr 1
    exact filter_map_sum_eq_of_map_perm Row.base (fun b => decide (b.grupo = k))
      Base.sellOut (((((perm_insertionSortB leGM (pass3 df)).map Row.base).trans
        (map_base_pass3_perm df)).trans (map_base_pass2_perm df)).trans
        (map_base_pass1_perm df))
  · intro k o ho
    have h1 := getLast_filter_cumsumBy keyDG valDif
      (fun r v => { r with estoquePorProdutoEGrupo := some v })
      (fun r => r.estoquePorProdutoEGrupo) (fun _ _ => rfl) (fun _ _ => rfl) k
      (insertionSortB leDGM (pass4 df)) o ho
    refine h1.trans ?_
    congr 1
    exact filter_map_sum_eq_of_map_perm Row.base
      (fun b => decide ((b.descricao, b.grupo) = k)) Base.diferenca
      ((((((perm_insertionSortB leDGM (pass4 df)).map Row.base).trans
        (map_base_pass4_perm df)).trans (map_base_pass3_perm df)).trans
        (map_base_pass2_perm df)).trans (map_base_pass1_perm df))

/-! ### Claim C1 -/

theorem pairwise_base_of_base_perm {P : Base → Base → Prop}
    (hsymm : ∀ a b, P a b → P b a) {l₁ l₂ : List Row}
    (h : (l₂.map Row.base).Perm (l₁.map Row.base))
    (hp : l₁.Pairwise fun a b => P a.base b.base) :
    l₂.Pairwise fun a b => P a.base b.base := by
  have hp' : (l₁.map Row.base).Pairwise P := List.pairwise_map.mpr hp
  have hp'' : (l₂.map Row.base).Pairwise P := (h.pairwise_iff (fun hx => hsymm _ _ hx)).mpr hp'
  exact List.pairwise_map.mp hp''

/-- C1 as stated is false on the code: with two verbatim-identical rows (a
period tie inside a partition), the first row's cumulative value is its own
delta only, while the claimed value — the sum over all partition rows with
period ≤ its period — counts both rows. -/
theorem claim_C1_counterexample : ¬ claimC1 [rowDup, rowDup] := by decide

/-- C1 amended: when no product partition and no group partition contains
two rows of equal period (so no sort key has ties — exactly what the
counterexample exploits), every output row's running balance at each delta
granularity equals the sum of `Diferença` over the same-partition input rows
whose period is at most the row's period. -/
theorem claim_C1_amended (df : List Row) (hD : distinctDM df) (hG : distinctGM df) :
    claimC1 df := by
  refine ⟨?_, ?_, ?_⟩
  · intro r hr
    have hmem1 : projETP r ∈ (pass1 df).map projETP :=
      (map_projETP_calc_perm df).mem_iff.mp (List.mem_map_of_mem _ hr)
    rcases List.mem_map.mp hmem1 with ⟨o, ho, hoe⟩
    have hob : o.base = r.base := congrArg Prod.fst hoe
    have hoc : o.estoqueTotalPorProduto = r.estoqueTotalPorProduto := congrArg Prod.snd hoe
    have hs : SortedB (prodKO strKO natKO) (fun x : Row => (keyD x, mesOf x))
        (insertionSortB leDM df) := sorted_insertionSortB koSN_laws _ df
    have hd : (insertionSortB leDM df).Pairwise
        fun a b => keyD a = keyD b → mesOf a ≠ mesOf b :=
      ((perm_insertionSortB leDM df).pairwise_iff
        (fun hx he hm => hx he.symm hm.symm)).mpr hD
    have hval := cumsumBy_sorted_value keyD mesOf valDif
      (fun r v => { r with estoqueTotalPorProduto := some v })
      Row.estoqueTotalPorProduto (fun _ _ => rfl) (fun _ _ => rfl) (fun _ _ => rfl)
      (insertionSortB leDM df) hs hd o ho
    have hk : keyD o = keyD r := by
      show o.base.descricao = r.base.descricao
      rw [hob]
    have hm : mesOf o = mesOf r := by
      show o.base.mesAnoDt = r.base.mesAnoDt
      rw [hob]
    rw [hk, hm, hoc] at hval
    rw [hval]
    congr 1
    exact filter_map_sum_eq_of_map_perm Row.base
      (fun b => decide (b.descricao = r.base.descricao ∧ b.mesAnoDt ≤ r.base.mesAnoDt))
      Base.diferenca ((perm_insertionSortB leDM df).map Row.base)
  · intro r hr
    have hmem1 : projEG r ∈ (pass2 df).map projEG :=
      (map_projEG_calc_perm df).mem_iff.mp (List.mem_map_of_mem _ hr)
    rcases List.mem_map.mp hmem1 with ⟨o, ho, hoe⟩
    have hob : o.base = r.base := congrArg Prod.fst hoe
    have hoc : o.estoquePorGrupo = r.estoquePorGrupo := congrArg Prod.snd hoe
    have hs : SortedB (prodKO strKO natKO) (fun x : Row => (keyG x, mesOf x))
        (insertionSortB leGM (pass1 df)) := sorted_insertionSortB koSN_laws _ (pass1 df)
    have hd : (insertionSortB leGM (pass1 df)).Pairwise
        fun a b => keyG a = keyG b → mesOf a ≠ mesOf b :=
      pairwise_base_of_base_perm
        (P := fun b b' => b.grupo = b'.grupo → b.mesAnoDt ≠ b'.mesAnoDt)
        (fun a b hx he hm => hx he.symm hm.symm)
        (((perm_insertionSortB leGM (pass1 df)).map Row.base).trans (map_base_pass1_perm df))
        hG
    have hval := cumsumBy_sorted_value keyG mesOf valDif
      (fun r v => { r with estoquePorGrupo := some v })
      Row.estoquePorGrupo (fun _ _ => rfl) (fun _ _ => rfl) (fun _ _ => rfl)
      (insertionSortB leGM (pass1 df)) hs hd o ho
    have hk : keyG o = keyG r := by
      show o.base.grupo = r.base.grupo
      rw [hob]
    have hm : mesOf o = mesOf r := by
      show o.base.mesAnoDt = r.base.mesAnoDt
      rw [hob]
    rw [hk, hm, hoc] at hval
    rw [hval]
    congr 1
    exact filter_map_sum_eq_of_map_perm Row.base
      (fun b => decide (b.grupo = r.base.grupo ∧ b.mesAnoDt ≤ r.base.mesAnoDt))
      Base.diferenca
      (((perm_insertionSortB leGM (pass1 df)).map Row.base).trans (map_base_pass1_perm df))
  · intro r hr
    have hs : SortedB (prodKO koSS natKO) (fun x : Row => (keyDG x, mesOf x))
        (insertionSortB leDGM (pass4 df)) := sorted_insertionSortB koSSN_laws _ (pass4 df)
    have hd : (insertionSortB leDGM (pass4 df)).Pairwise
        fun a b => keyDG a = keyDG b → mesOf a ≠ mesOf b :=
      pairwise_base_of_base_perm
        (P := fun b b' =>
          (b.descricao, b.grupo) = (b'.descricao, b'.grupo) → b.mesAnoDt ≠ b'.mesAnoDt)
        (fun a b hx he hm => hx he.symm hm.symm)
        (((((perm_insertionSortB leDGM (pass4 df)).map Row.base).trans
          (map_base_pass4_perm df)).trans (map_base_pass3_perm df)).trans
          ((map_base_pass2_perm df).trans (map_base_pass1_perm df)))
        (hD.imp fun h hpair => h (congrArg Prod.fst hpair))
    have hval := cumsumBy_sorted_value keyDG mesOf valDif
      (fun r v => { r with estoquePorProdutoEGrupo := some v })
      Row.estoquePorProdutoEGrupo (fun _ _ => rfl) (fun _ _ => rfl) (fun _ _ => rfl)
      (insertionSortB leDGM (pass4 df)) hs hd r hr
    rw [hval]
    congr 1
    exact filter_map_sum_eq_of_map_perm Row.base
      (fun b => decide ((b.descricao, b.grupo) = (r.base.descricao, r.base.grupo)
        ∧ b.mesAnoDt ≤ r.base.mesAnoDt))
      Base.diferenca
      (((((perm_insertionSortB leDGM (pass4 df)).map Row.base).trans
        (map_base_pass4_perm df)).trans (map_base_pass3_perm df)).trans
        ((map_base_pass2_perm df).trans (map_base_pass1_perm df)))

/-- Witness for the amended C1 at a concrete tie-free frame. -/
theorem claim_C1_amended_witness : distinctDM witDf ∧ distinctGM witDf ∧ claimC1 witDf :=
  ⟨by decide, by decide, claim_C1_amended witDf (by decide) (by decide)⟩

/-! ### Canonical output form under tie-free sort keys (for C4 and C8) -/

theorem filter_map_through {α β : Type} (g : α → β) (p : β → Bool) (v : β → Int) (l : List α) :
    ((l.filter fun a => p (g a)).map fun a => v (g a)) = ((l.map g).filter p).map v := by
  rw [List.filter_map, List.map_map]
  rfl

theorem sum_to_base {l : List Row} {B : List Base} (h : (l.map Row.base).Perm B)
    (p : Base → Bool) (v : Base → Int) :
    ((l.filter fun a => p (Row.base a)).map fun a => v (Row.base a)).sum
      = ((B.filter p).map v).sum := by
  rw [filter_map_through Row.base p v l]
  exact ((h.filter p).map v).sum_eq

/-- Value attached by one sort+cumsum stage, stated against the stage's
(unsorted) input: each output row's column is the sum of `val` over the
input rows of its group with period at most its own, provided the stage's
sort key has no ties in the input. -/
theorem sortCumsum_value {κ : Type} [DecidableEq κ] {kok : KeyOrder κ} (laws : kok.Laws)
    (key : Row → κ) (val : Row → Int) (setf : Row → Int → Row) (get : Row → Option Int)
    (hkey : ∀ r v, key (setf r v) = key r) (hmes : ∀ r v, mesOf (setf r v) = mesOf r)
    (hget : ∀ r v, get (setf r v) = some v) (input : List Row)
    (hd : input.Pairwise fun a b => key a = key b → mesOf a ≠ mesOf b) :
    ∀ o ∈ cumsumBy key val setf
        (insertionSortB (keyLe (prodKO kok natKO) fun x => (key x, mesOf x)) input),
      get o = some (((input.filter fun s => key s = key o ∧ mesOf s ≤ mesOf o).map val).sum) := by
  intro o ho
  have hperm := perm_insertionSortB
    (keyLe (prodKO kok natKO) fun x : Row => (key x, mesOf x)) input
  have hs : SortedB (prodKO kok natKO) (fun x : Row => (key x, mesOf x))
      (insertionSortB (keyLe (prodKO kok natKO) fun x => (key x, mesOf x)) input) :=
    sorted_insertionSortB (prodKO_laws laws natKO_laws) _ input
  have hd' := (hperm.pairwise_iff
    (fun hx he hm => hx he.symm hm.symm)).mpr hd
  have hval := cumsumBy_sorted_value key mesOf val setf get hkey hmes hget _ hs hd' o ho
  rw [hval]
  congr 1
  exact (((hperm.filter fun s => decide (key s = key o ∧ mesOf s ≤ mesOf o)).map val).sum_eq)

theorem det_ETP (df : List Row) (hD : distinctDM df) :
    ∀ r ∈ calculate_cumsums df,
      r.estoqueTotalPorProduto = some (balETP (df.map Row.base) r.base) := by
  intro r hr
  have hmem1 : projETP r ∈ (pass1 df).map projETP :=
    (map_projETP_calc_perm df).mem_iff.mp (List.mem_map_of_mem _ hr)
  rcases List.mem_map.mp hmem1 with ⟨o, ho, hoe⟩
  have hob : o.base = r.base := congrArg Prod.fst hoe
  have hoc : o.estoqueTotalPorProduto = r.estoqueTotalPorProduto := congrArg Prod.snd hoe
  have hval := sortCumsum_value strKO_laws keyD valDif
    (fun r v => { r with estoqueTotalPorProduto := some v })
    Row.estoqueTotalPorProduto (fun _ _ => rfl) (fun _ _ => rfl) (fun _ _ => rfl) df hD o ho
  rw [hoc] at hval
  rw [hval, ← hob]
  congr 1
  exact sum_to_base (List.Perm.refl _)
    (fun b => decide (b.descricao = o.base.descricao ∧ b.mesAnoDt ≤ o.base.mesAnoDt))
    Base.diferenca

theorem det_EG (df : List Row) (hG : distinctGM df) :
    ∀ r ∈ calculate_cumsums df,
      r.estoquePorGrupo = some (balEG (df.map Row.base) r.base) := by
  intro r hr
  have hmem1 : projEG r ∈ (pass2 df).map projEG :=
    (map_projEG_calc_perm df).mem_iff.mp (List.mem_map_of_mem _ hr)
  rcases List.mem_map.mp hmem1 with ⟨o, ho, hoe⟩
  have hob : o.base = r.base := congrArg Prod.fst hoe
  have hoc : o.estoquePorGrupo = r.estoquePorGrupo := congrArg Prod.snd hoe
  have hG1 : (pass1 df).Pairwise
      fun a b => a.base.grupo = b.base.grupo → a.base.mesAnoDt ≠ b.base.mesAnoDt :=
    pairwise_base_of_base_perm
      (P := fun b b' => b.grupo = b'.grupo → b.mesAnoDt ≠ b'.mesAnoDt)
      (fun a b hx he hm => hx he.symm hm.symm) (map_base_pass1_perm df) hG
  have hval := sortCumsum_value strKO_laws keyG valDif
    (fun r v => { r with estoquePorGrupo := some v })
    Row.estoquePorGrupo (fun _ _ => rfl) (fun _ _ => rfl) (fun _ _ => rfl) (pass1 df) hG1 o ho
  rw [hoc] at hval
  rw [hval, ← hob]
  congr 1
  exact sum_to_base (map_base_pass1_perm df)
    (fun b => decide (b.grupo = o.base.grupo ∧ b.mesAnoDt ≤ o.base.mesAnoDt))
    Base.diferenca

theorem det_SIG (df : List Row) (hG : distinctGM df) :
    ∀ r ∈ calculate_cumsums df,
      r.sellInPorGrupo = some (balSIG (df.map Row.base) r.base) := by
  intro r hr
  have hmem1 : projSIG r ∈ (pass3 df).map projSIG :=
    (map_projSIG_calc_perm df).mem_iff.mp (List.mem_map_of_mem _ hr)
  rcases List.mem_map.mp hmem1 with ⟨o, ho, hoe⟩
  have hob : o.base = r.base := congrArg Prod.fst hoe
  have hoc : o.sellInPorGrupo = r.sellInPorGrupo := congrArg Prod.snd hoe
  have hG2 : (pass2 df).Pairwise
      fun a b => a.base.grupo = b.base.grupo → a.base.mesAnoDt ≠ b.base.mesAnoDt :=
    pairwise_base_of_base_perm
      (P := fun b b' => b.grupo = b'.grupo → b.mesAnoDt ≠ b'.mesAnoDt)
      (fun a b hx he hm => hx he.symm hm.symm)
      ((map_base_pass2_perm df).trans (map_base_pass1_perm df)) hG
  have hval := sortCumsum_value strKO_laws keyG valSI
    (fun r v => { r with sellInPorGrupo := some v })
    Row.sellInPorGrupo (fun _ _ => rfl) (fun _ _ => rfl) (fun _ _ => rfl) (pass2 df) hG2 o ho
  rw [hoc] at hval
  rw [hval, ← hob]
  congr 1
  exact sum_to_base ((map_base_pass2_perm df).trans (map_base_pass1_perm df))
    (fun b => decide (b.grupo = o.base.grupo ∧ b.mesAnoDt ≤ o.base.mesAnoDt))
    Base.sellIn

theorem det_SOG (df : List Row) (hG : distinctGM df) :
    ∀ r ∈ calculate_cumsums df,
      r.sellOutPorGrupo = some (balSOG (df.map Row.base) r.base) := by
  intro r hr
  have hmem1 : projSOG r ∈ (pass4 df).map projSOG :=
    (map_projSOG_calc_perm df).mem_iff.mp (List.mem_map_of_mem _ hr)
  rcases List.mem_map.mp hmem1 with ⟨o, ho, hoe⟩
  have hob : o.base = r.base := congrArg Prod.fst hoe
  have hoc : o.sellOutPorGrupo = r.sellOutPorGrupo := congrArg Prod.snd hoe
  have hG3 : (pass3 df).Pairwise
      fun a b => a.base.grupo = b.base.grupo → a.base.mesAnoDt ≠ b.base.mesAnoDt :=
    pairwise_base_of_base_perm
      (P := fun b b' => b.grupo = b'.grupo → b.mesAnoDt ≠ b'.mesAnoDt)
      (fun a b hx he hm => hx he.symm hm.symm)
      (((map_base_pass3_perm df).trans (map_base_pass2_perm df)).trans
        (map_base_pass1_perm df)) hG
  have hval := sortCumsum_value strKO_laws keyG valSO
    (fun r v => { r with sellOutPorGrupo := some v })
    Row.sellOutPorGrupo (fun _ _ => rfl) (fun _ _ => rfl) (fun _ _ => rfl) (pass3 df) hG3 o ho
  rw [hoc] at hval
  rw [hval, ← hob]
  congr 1
  exact sum_to_base (((map_base_pass3_perm df).trans (map_base_pass2_perm df)).trans
    (map_base_pass1_perm df))
    (fun b => decide (b.grupo = o.base.grupo ∧ b.mesAnoDt ≤ o.base.mesAnoDt))
    Base.sellOut

theorem det_EPG (df : List Row) (hD : distinctDM df) :
    ∀ r ∈ calculate_cumsums df,
      r.estoquePorProdutoEGrupo = some (balEPG (df.map Row.base) r.base) := by
  intro r hr
  have hD4 : (pass4 df).Pairwise
      fun a b => (a.base.descricao, a.base.grupo) = (b.base.descricao, b.base.grupo)
        → a.base.mesAnoDt ≠ b.base.mesAnoDt :=
    pairwise_base_of_base_perm
      (P := fun b b' => (b.descricao, b.grupo) = (b'.descricao, b'.grupo)
        → b.mesAnoDt ≠ b'.mesAnoDt)
      (fun a b hx he hm => hx he.symm hm.symm)
      ((((map_base_pass4_perm df).trans (map_base_pass3_perm df)).trans
        (map_base_pass2_perm df)).trans (map_base_pass1_perm df))
      (hD.imp fun h hpair => h (congrArg Prod.fst hpair))
  have hval := sortCumsum_value koSS_laws keyDG valDif
    (fun r v => { r with estoquePorProdutoEGrupo := some v })
    Row.estoquePorProdutoEGrupo (fun _ _ => rfl) (fun _ _ => rfl) (fun _ _ => rfl)
    (pass4 df) hD4 r hr
  rw [hval]
  congr 1
  exact sum_to_base ((((map_base_pass4_perm df).trans (map_base_pass3_perm df)).trans
    (map_base_pass2_perm df)).trans (map_base_pass1_perm df))
    (fun b => decide ((b.descricao, b.grupo) = (r.base.descricao, r.base.grupo)
      ∧ b.mesAnoDt ≤ r.base.mesAnoDt))
    Base.diferenca

theorem sorted_base_calc (df : List Row) :
    SortedB koSSN sortKeyDGM ((calculate_cumsums df).map Row.base) := by
  have h1 : (calculate_cumsums df).map Row.base
      = (insertionSortB leDGM (pass4 df)).map Row.base :=
    map_cumsumBy keyDG valDif (fun r v => { r with estoquePorProdutoEGrupo := some v })
      Row.base (fun _ _ => rfl) _
  rw [h1]
  have h2 : SortedB koSSN (fun r : Row => sortKeyDGM r.base)
      (insertionSortB leDGM (pass4 df)) :=
    sorted_insertionSortB koSSN_laws _ (pass4 df)
  exact List.pairwise_map.mpr h2

theorem pairwise_ne_sortKeyDM (df : List Row) (hD : distinctDM df) :
    df.Pairwise fun a b => sortKeyDM a.base ≠ sortKeyDM b.base :=
  hD.imp fun h heq => h (congrArg Prod.fst heq) (congrArg Prod.snd heq)

theorem pairwise_ne_sortKeyDGM (df : List Row) (hD : distinctDM df) :
    df.Pairwise fun a b => sortKeyDGM a.base ≠ sortKeyDGM b.base :=
  hD.imp fun h heq => h (congrArg (fun p => p.1.1) heq) (congrArg Prod.snd heq)

theorem map_base_calc_eq_sortB (df : List Row) (hD : distinctDM df) :
    (calculate_cumsums df).map Row.base = insertionSortB leBaseDGM (df.map Row.base) := by
  apply sorted_perm_unique koSSN_laws sortKeyDGM
  · exact (map_base_calc_perm df).trans (perm_insertionSortB leBaseDGM (df.map Row.base)).symm
  · exact sorted_base_calc df
  · exact sorted_insertionSortB koSSN_laws sortKeyDGM (df.map Row.base)
  · exact ((map_base_calc_perm df).pairwise_iff (fun hx he => hx he.symm)).mpr
      (List.pairwise_map.mpr (pairwise_ne_sortKeyDGM df hD))

theorem list_eq_map_of_forall {l : List Row} {h : Base → Row}
    (hl : ∀ o ∈ l, h o.base = o) : l = (l.map Row.base).map h := by
  induction l with
  | nil => rfl
  | cons a t ih =>
    simp only [List.map_cons]
    rw [hl a (List.mem_cons_self a t)]
    rw [← ih fun o ho => hl o (List.mem_cons_of_mem a ho)]

theorem bal_sum_perm {B₁ B₂ : List Base} (h : B₁.Perm B₂) (p : Base → Bool) (v : Base → Int) :
    ((B₁.filter p).map v).sum = ((B₂.filter p).map v).sum :=
  ((h.filter p).map v).sum_eq

theorem rowFor_perm_congr {B₁ B₂ : List Base} (h : B₁.Perm B₂) (b : Base) :
    rowFor B₁ b = rowFor B₂ b := by
  unfold rowFor balETP balEG balSIG balSOG balEPG
  rw [bal_sum_perm h, bal_sum_perm h, bal_sum_perm h, bal_sum_perm h, bal_sum_perm h]

/-- With tie-free sort keys the output is fully canonical: base records in
final sort order, each carrying the five closed-form balances. -/
theorem calc_canon (df : List Row) (hD : distinctDM df) (hG : distinctGM df) :
    calculate_cumsums df = canon df := by
  have hdet : ∀ o ∈ calculate_cumsums df, rowFor (df.map Row.base) o.base = o := by
    intro o ho
    have e1 := det_ETP df hD o ho
    have e2 := det_EG df hG o ho
    have e3 := det_SIG df hG o ho
    have e4 := det_SOG df hG o ho
    have e5 := det_EPG df hD o ho
    cases o with
    | mk b c1 c2 c3 c4 c5 =>
      dsimp only at e1 e2 e3 e4 e5
      rw [rowFor, e1, e2, e3, e4, e5]
  have hlist := list_eq_map_of_forall hdet
  rw [hlist, map_base_calc_eq_sortB df hD]
  rfl

/-! ### Claims C4 and C8

The computation never reads a computed column: every comparison and every
accumulated value reads base columns only, and each pass overwrites its own
column.  So the output is a function of the input's base-column sequence
(`calc_eq_of_map_base_eq`, no tie hypothesis), and — because only the first
sort sees the caller's order — a function of the base-column multiset as
soon as the `['Descrição', 'mes_ano_dt']` key is tie-free
(`calc_eq_of_perm_of_distinctDM`).  Group-period ties are harmless: the
group sorts break them by the order the product sort already fixed. -/

theorem map_orderedInsertB_compat {α β : Type} (f : α → β) (le : α → α → Bool)
    (leP : β → β → Bool) (hle : ∀ a b, le a b = leP (f a) (f b)) (a : α) :
    ∀ l : List α, (orderedInsertB le a l).map f = orderedInsertB leP (f a) (l.map f)
  | [] => rfl
  | b :: l => by
    show (if le a b then a :: b :: l else b :: orderedInsertB le a l).map f
      = if leP (f a) (f b) then f a :: f b :: l.map f
        else f b :: orderedInsertB leP (f a) (l.map f)
    rw [hle a b]
    cases h : leP (f a) (f b)
    · simp only [Bool.false_eq_true, if_false, List.map_cons]
      rw [map_orderedInsertB_compat f le leP hle a l]
    · simp only [if_true, List.map_cons]

theorem map_insertionSortB_compat {α β : Type} (f : α → β) (le : α → α → Bool)
    (leP : β → β → Bool) (hle : ∀ a b, le a b = leP (f a) (f b)) :
    ∀ l : List α, (insertionSortB le l).map f = insertionSortB leP (l.map f)
  | [] => rfl
  | b :: l => by
    show (orderedInsertB le b (insertionSortB le l)).map f
      = orderedInsertB leP (f b) (insertionSortB leP (l.map f))
    rw [map_orderedInsertB_compat f le leP hle b (insertionSortB le l),
      map_insertionSortB_compat f le leP hle l]

theorem map_cumsumAux_two {α β κ : Type} [DecidableEq κ] (f g : α → β)
    (key : α → κ) (val : α → Int) (setA : α → Int → α)
    (keyP : β → κ) (valP : β → Int) (setB : β → Int → β)
    (hkey : ∀ r, key r = keyP (f r)) (hval : ∀ r, val r = valP (f r))
    (hset : ∀ r v, g (setA r v) = setB (f r) v) :
    ∀ (prev l : List α), (cumsumAux key val setA prev l).map g
      = cumsumAux keyP valP setB (prev.map f) (l.map f)
  | _, [] => rfl
  | prev, r :: rs => by
    show g (setA r ((((prev.filter fun s => key s = key r).map val).sum) + val r))
        :: (cumsumAux key val setA (prev ++ [r]) rs).map g
      = setB (f r) ((((((prev.map f).filter fun s => keyP s = keyP (f r)).map valP).sum)
          + valP (f r)))
        :: cumsumAux keyP valP setB ((prev.map f) ++ [f r]) (rs.map f)
    have hsum : (((prev.filter fun s => key s = key r).map val).sum) + val r
        = ((((prev.map f).filter fun s => keyP s = keyP (f r)).map valP).sum)
          + valP (f r) := by
      rw [hval r]
      congr 1
      have h1 : (prev.filter fun s => key s = key r)
          = prev.filter fun s => keyP (f s) = keyP (f r) := by
        apply List.filter_congr
        intro s _
        simp only [hkey]
      rw [h1, ← filter_map_through f (fun x => decide (keyP x = keyP (f r))) valP prev]
      congr 1
      apply List.map_congr_left
      intro a _
      exact hval a
    rw [hset, hsum]
    congr 1
    rw [map_cumsumAux_two f g key val setA keyP valP setB hkey hval hset (prev ++ [r]) rs,
      List.map_append]
    rfl

/-- One sort+cumsum stage only reads what the projection `f` keeps, and `g`
keeps additionally the column the stage writes; so `g`-images of the outputs
agree whenever `f`-images of the inputs do. -/
theorem stage_congr {κ : Type} [DecidableEq κ] (key : Row → κ) (val : Row → Int)
    (setR : Row → Int → Row) (le : Row → Row → Bool) (f g : Row → Row)
    (hkey : ∀ r, key r = key (f r)) (hval : ∀ r, val r = val (f r))
    (hset : ∀ r v, g (setR r v) = setR (f r) v)
    (hle : ∀ a b, le a b = le (f a) (f b))
    {X Y : List Row} (h : X.map f = Y.map f) :
    (cumsumBy key val setR (insertionSortB le X)).map g
      = (cumsumBy key val setR (insertionSortB le Y)).map g := by
  have eC : ∀ Z : List Row, (cumsumBy key val setR (insertionSortB le Z)).map g
      = cumsumAux key val setR [] ((insertionSortB le Z).map f) := fun Z =>
    map_cumsumAux_two f g key val setR key val setR hkey hval hset [] _
  rw [eC X, eC Y, map_insertionSortB_compat f le le hle X,
    map_insertionSortB_compat f le le hle Y, h]

/-- `calculate_cumsums` never reads a computed column, so inputs with equal
base-column sequences give equal outputs — no tie-freeness needed. -/
theorem calc_eq_of_map_base_eq {X Y : List Row} (h : X.map Row.base = Y.map Row.base) :
    calculate_cumsums X = calculate_cumsums Y := by
  have h0 : X.map reset0 = Y.map reset0 := by
    have e : ∀ Z : List Row, Z.map reset0 = (Z.map Row.base).map fun b => { base := b } := by
      intro Z
      rw [List.map_map]
      rfl
    rw [e, e, h]
  have p1 : (pass1 X).map reset1 = (pass1 Y).map reset1 :=
    stage_congr keyD valDif (fun r v => { r with estoqueTotalPorProduto := some v }) leDM
      reset0 reset1 (fun _ => rfl) (fun _ => rfl) (fun _ _ => rfl) (fun _ _ => rfl) h0
  have p2 : (pass2 X).map reset2 = (pass2 Y).map reset2 :=
    stage_congr keyG valDif (fun r v => { r with estoquePorGrupo := some v }) leGM
      reset1 reset2 (fun _ => rfl) (fun _ => rfl) (fun _ _ => rfl) (fun _ _ => rfl) p1
  have p3 : (pass3 X).map reset3 = (pass3 Y).map reset3 :=
    stage_congr keyG valSI (fun r v => { r with sellInPorGrupo := some v }) leGM
      reset2 reset3 (fun _ => rfl) (fun _ => rfl) (fun _ _ => rfl) (fun _ _ => rfl) p2
  have p4 : (pass4 X).map reset4 = (pass4 Y).map reset4 :=
    stage_congr keyG valSO (fun r v => { r with sellOutPorGrupo := some v }) leGM
      reset3 reset4 (fun _ => rfl) (fun _ => rfl) (fun _ _ => rfl) (fun _ _ => rfl) p3
  have p5 : (pass5 X).map id = (pass5 Y).map id :=
    stage_congr keyDG valDif (fun r v => { r with estoquePorProdutoEGrupo := some v }) leDGM
      reset4 id (fun _ => rfl) (fun _ => rfl) (fun _ _ => rfl) (fun _ _ => rfl) p4
  show pass5 X = pass5 Y
  simpa using p5

/-- When the `['Descrição', 'mes_ano_dt']` sort key is tie-free, the output
depends only on the multiset of rows: the first sort — the only one that
sees the caller's order — then has a unique sorted arrangement. -/
theorem calc_eq_of_perm_of_distinctDM (df df' : List Row) (hperm : df.Perm df')
    (hD : distinctDM df) : calculate_cumsums df = calculate_cumsums df' := by
  have hsort : insertionSortB leDM df = insertionSortB leDM df' := by
    apply sorted_perm_unique koSN_laws (fun r : Row => sortKeyDM r.base)
    · exact (perm_insertionSortB leDM df).trans
        (hperm.trans (perm_insertionSortB leDM df').symm)
    · exact sorted_insertionSortB koSN_laws _ df
    · exact sorted_insertionSortB koSN_laws _ df'
    · exact ((perm_insertionSortB leDM df).pairwise_iff (fun hx he => hx he.symm)).mpr
        (pairwise_ne_sortKeyDM df hD)
  have h1 : pass1 df = pass1 df' := by
    unfold pass1
    rw [hsort]
  unfold calculate_cumsums pass5 pass4 pass3 pass2
  rw [h1]

/-- C4 as stated is false on the code: applying `calculate_cumsums` to its
own output changes the per-product running balances.  The two rows tie on
`(Descrição, mes_ano_dt)`; the first call reads them in insertion order, but
its output is re-ordered by group, so the second call accumulates the tied
deltas in a different order. -/
theorem claim_C4_counterexample :
    calculate_cumsums (calculate_cumsums [rowPB, rowPA]) ≠ calculate_cumsums [rowPB, rowPA] := by
  decide

/-- C4 amended: determinism is unconditional (the operation is a pure
function of its input); full idempotence holds whenever no product partition
contains two rows of equal period — exactly the ties the counterexample
exploits.  Group-period ties alone do not affect idempotence: only the first
sort sees the caller's row order, so once its key is tie-free the output is
a function of the row multiset, which re-application preserves. -/
theorem claim_C4_amended (df : List Row) (hD : distinctDM df) :
    calculate_cumsums (calculate_cumsums df) = calculate_cumsums df := by
  have hA1 : calculate_cumsums (calculate_cumsums df)
      = calculate_cumsums ((calculate_cumsums df).map reset0) := by
    apply calc_eq_of_map_base_eq
    rw [List.map_map]
    rfl
  have hA3 : calculate_cumsums df = calculate_cumsums (df.map reset0) := by
    apply calc_eq_of_map_base_eq
    rw [List.map_map]
    rfl
  have hDfd : distinctDM (calculate_cumsums df) :=
    pairwise_base_of_base_perm
      (P := fun b b' => b.descricao = b'.descricao → b.mesAnoDt ≠ b'.mesAnoDt)
      (fun a b hx he hm => hx he.symm hm.symm) (map_base_calc_perm df) hD
  have hDW : distinctDM ((calculate_cumsums df).map reset0) := List.pairwise_map.mpr hDfd
  have hperm : ((calculate_cumsums df).map reset0).Perm (df.map reset0) := by
    have h := (map_base_calc_perm df).map fun b => ({ base := b } : Row)
    rw [List.map_map, List.map_map] at h
    exact h
  calc calculate_cumsums (calculate_cumsums df)
      = calculate_cumsums ((calculate_cumsums df).map reset0) := hA1
    _ = calculate_cumsums (df.map reset0) := calc_eq_of_perm_of_distinctDM _ _ hperm hDW
    _ = calculate_cumsums df := hA3.symm

/-- Witness for the amended C4: a frame whose two rows tie on group and
period (but not on product and period) is idempotent. -/
theorem claim_C4_amended_witness :
    distinctDM witDf2
      ∧ calculate_cumsums (calculate_cumsums witDf2) = calculate_cumsums witDf2 :=
  ⟨by decide, claim_C4_amended witDf2 (by decide)⟩

/-- C8 as stated is false on the code: permuting two rows that tie on
`(Descrição, mes_ano_dt)` (but belong to different groups) changes their
per-product running balances, even though each row is identified by its full
base record. -/
theorem claim_C8_counterexample :
    ([rowPA, rowPB].Perm [rowPB, rowPA])
      ∧ ¬ balancesMatchByKey [rowPB, rowPA] [rowPA, rowPB] :=
  ⟨List.Perm.swap rowPB rowPA [], by decide⟩

/-- C8 amended: the per-row balances are independent of the caller's input
order whenever no product partition holds two rows of equal period (the
ties the counterexample permutes): the two outputs are then equal as lists,
so matching rows by any key yields identical balances. -/
theorem claim_C8_amended (df df' : List Row) (hperm : df.Perm df') (hD : distinctDM df) :
    calculate_cumsums df = calculate_cumsums df' :=
  calc_eq_of_perm_of_distinctDM df df' hperm hD

/-- Witness for the amended C8 at a concrete permuted pair. -/
theorem claim_C8_amended_witness :
    witDf.Perm [witB, witA, witC] ∧ distinctDM witDf
      ∧ calculate_cumsums witDf = calculate_cumsums [witB, witA, witC] :=
  ⟨List.Perm.swap witB witA [witC], by decide,
    claim_C8_amended witDf [witB, witA, witC] (List.Perm.swap witB witA [witC]) (by decide)⟩

/-! ### Claims C6, C9, C10 -/

theorem andThen_error (e : SchemaError) (f : DFU → Except SchemaError DFU) :
    andThen (Except.error e) f = Except.error e := rfl

theorem andThen_ok (d : DFU) (f : DFU → Except SchemaError DFU) :
    andThen (Except.ok d) f = f d := rfl

theorem andThen_ok_of_eq {x : Except SchemaError DFU} {f : DFU → Except SchemaError DFU}
    {out : DFU} (h : andThen x f = Except.ok out) :
    ∃ d, x = Except.ok d ∧ f d = Except.ok out := by
  cases x with
  | error e => simp [andThen] at h
  | ok d => exact ⟨d, rfl, h⟩

theorem sort_values_u_cols {df : DFU} {bys : List String} {d : DFU}
    (h : sort_values_u df bys = Except.ok d) : d.cols = df.cols := by
  unfold sort_values_u at h
  split at h
  · simp only [Except.ok.injEq] at h
    rw [← h]
  · simp at h

theorem sort_values_u_keys {df : DFU} {bys : List String} {d : DFU}
    (h : sort_values_u df bys = Except.ok d) : ∀ c ∈ bys, c ∈ df.cols := by
  unfold sort_values_u at h
  split at h
  · next hcond =>
    intro c hc
    have := List.all_eq_true.mp hcond c hc
    simpa using this
  · simp at h

theorem groupby_cumsum_u_keys {df : DFU} {ks : List String} {vc nc : String} {d : DFU}
    (h : groupby_cumsum_u df ks vc nc = Except.ok d) : vc ∈ df.cols := by
  unfold groupby_cumsum_u at h
  split at h
  · next hcond =>
    simp only [Bool.and_eq_true] at hcond
    simpa using hcond.2
  · simp at h

theorem groupby_cumsum_u_cols {df : DFU} {ks : List String} {vc nc : String} {d : DFU}
    (h : groupby_cumsum_u df ks vc nc = Except.ok d) :
    ∀ c, c ∈ d.cols ↔ c ∈ df.cols ∨ c = nc := by
  unfold groupby_cumsum_u at h
  split at h
  · cases hci : colInts vc df.rows with
    | error e => rw [hci] at h; simp at h
    | ok ints =>
      rw [hci] at h
      simp only [Except.ok.injEq] at h
      rw [← h]
      intro c
      by_cases hnc : df.cols.contains nc
      · have hmem : nc ∈ df.cols := by simpa using hnc
        rw [if_pos hnc]
        constructor
        · exact Or.inl
        · rintro (hc | rfl)
          · exact hc
          · exact hmem
      · rw [if_neg hnc]
        simp [List.mem_append]
  · simp at h

/-- C6: when the delta column (`Diferença`) or a group-key column
(`Descrição`, `Grupo`) is absent from the frame, `calculate_cumsums` fails
with the missing-column error (pandas `KeyError`, the spec's `SchemaError`)
instead of producing a result. -/
theorem claim_C6_missing_column_fails (df : DFU)
    (h : "Diferença" ∉ df.cols ∨ "Descrição" ∉ df.cols ∨ "Grupo" ∉ df.cols) :
    ∃ e, calculate_cumsums_u df = Except.error e := by
  unfold calculate_cumsums_u
  cases h1 : sort_values_u df ["Descrição", "mes_ano_dt"] with
  | error e => exact ⟨e, rfl⟩
  | ok d1 =>
    rw [andThen_ok]
    have hc1 : d1.cols = df.cols := sort_values_u_cols h1
    have hdesc : "Descrição" ∈ df.cols := sort_values_u_keys h1 _ (by simp)
    cases h2 : groupby_cumsum_u d1 ["Descrição"] "Diferença" "Estoque Total por Produto" with
    | error e => exact ⟨e, rfl⟩
    | ok d2 =>
      rw [andThen_ok]
      have hdif : "Diferença" ∈ df.cols := by
        have := groupby_cumsum_u_keys h2
        rwa [hc1] at this
      have hgrupo : "Grupo" ∉ df.cols := by
        rcases h with h | h | h
        · exact absurd hdif h
        · exact absurd hdesc h
        · exact h
      have hg2 : "Grupo" ∉ d2.cols := by
        intro hmem
        rcases (groupby_cumsum_u_cols h2 _).mp hmem with hc | hc
        · rw [hc1] at hc
          exact hgrupo hc
        · exact absurd hc (by decide)
      have hcond : ¬ (["Grupo", "mes_ano_dt"].all (fun c => d2.cols.contains c) = true) := by
        intro hall
        exact hg2 (by simpa using List.all_eq_true.mp hall "Grupo" (by simp))
      have hsort : sort_values_u d2 ["Grupo", "mes_ano_dt"]
          = Except.error ⟨"KeyError: sort_values"⟩ := by
        unfold sort_values_u
        rw [if_neg hcond]
      exact ⟨_, by rw [hsort, andThen_error]⟩

/-- Witness: a frame with `Diferença` absent makes `calculate_cumsums` fail. -/
theorem claim_C6_witness :
    ∃ e, calculate_cumsums_u ⟨["Descrição", "Grupo", "mes_ano_dt"], []⟩ = Except.error e :=
  claim_C6_missing_column_fails _ (Or.inl (by decide))

/-- C9: the `'All'`/`'All'` chart branch (lines 190-247) reads the series
`'Estoque Geral'`, `'Sell-in Geral'` and `'Sell-out por Geral'` from a frame
`df_grafico` that is only assigned in the `else` branch (line 250); moreover
no frame in that path can carry those series: for a frame with the loaded
schema, the columns after `calculate_cumsums` are exactly the loaded columns
plus the five balance columns, and none of the three referenced names is
among them, so the branch cannot succeed.  (The branch is additionally
syntactically malformed: lines 198-247 are indented one level deeper than
the statement at line 191.) -/
theorem claim_C9_undefined_series (df out : DFU) (hcols : df.cols = loadSchema)
    (hok : calculate_cumsums_u df = Except.ok out) :
    "Estoque Geral" ∉ out.cols ∧ "Sell-in Geral" ∉ out.cols
      ∧ "Sell-out por Geral" ∉ out.cols := by
  unfold calculate_cumsums_u at hok
  obtain ⟨d1, h1, hok⟩ := andThen_ok_of_eq hok
  obtain ⟨d2, h2, hok⟩ := andThen_ok_of_eq hok
  obtain ⟨d3, h3, hok⟩ := andThen_ok_of_eq hok
  obtain ⟨d4, h4, hok⟩ := andThen_ok_of_eq hok
  obtain ⟨d5, h5, hok⟩ := andThen_ok_of_eq hok
  obtain ⟨d6, h6, hok⟩ := andThen_ok_of_eq hok
  obtain ⟨d7, h7, hok⟩ := andThen_ok_of_eq hok
  obtain ⟨d8, h8, hok⟩ := andThen_ok_of_eq hok
  obtain ⟨d9, h9, hok⟩ := andThen_ok_of_eq hok
  obtain ⟨d10, h10, hok⟩ := andThen_ok_of_eq hok
  have hout : d10 = out := by simpa using hok
  have m1 := sort_values_u_cols h1
  have m2 := groupby_cumsum_u_cols h2
  have m3 := sort_values_u_cols h3
  have m4 := groupby_cumsum_u_cols h4
  have m5 := sort_values_u_cols h5
  have m6 := groupby_cumsum_u_cols h6
  have m7 := sort_values_u_cols h7
  have m8 := groupby_cumsum_u_cols h8
  have m9 := sort_values_u_cols h9
  have m10 := groupby_cumsum_u_cols h10
  have hiff : ∀ c, c ∈ out.cols ↔ c ∈ df.cols
      ∨ c = "Estoque Total por Produto" ∨ c = "Estoque por Grupo"
      ∨ c = "Sell-in por Grupo" ∨ c = "Sell-out por Grupo"
      ∨ c = "Estoque por Produto e Grupo" := by
    intro c
    rw [← hout, m10 c, m9, m8 c, m7, m6 c, m5, m4 c, m3, m2 c, m1]
    tauto
  refine ⟨?_, ?_, ?_⟩
  · intro hm
    rw [hiff, hcols] at hm
    revert hm
    decide
  · intro hm
    rw [hiff, hcols] at hm
    revert hm
    decide
  · intro hm
    rw [hiff, hcols] at hm
    revert hm
    decide

/-- Witness: on an empty frame with the loaded schema the computation
succeeds and its columns exclude the three series the global branch reads. -/
theorem claim_C9_witness :
    ∃ out, calculate_cumsums_u dfLoad = Except.ok out
      ∧ ("Estoque Geral" ∉ out.cols ∧ "Sell-in Geral" ∉ out.cols
        ∧ "Sell-out por Geral" ∉ out.cols) :=
  ⟨dfLoadOut, rfl, claim_C9_undefined_series dfLoad dfLoadOut rfl rfl⟩

/-- C10: `load_data` never propagates an exception — each listed failure
(no local file and no upload; an unpickling error from either source; a
conversion/renaming failure such as a missing `mes_ano`/selected column or a
malformed date) yields the empty frame, the state `main` (lines 116-118)
treats as "no data". -/
theorem claim_C10_load_data_failures (env : LoadEnv) :
    ((env.localExists = false ∧ env.uploaded = none) → load_data env = emptyDF)
  ∧ (∀ e, (env.localExists = true ∧ env.localPickle = Except.error e)
        ∨ (env.localExists = false ∧ env.uploaded = some (Except.error e))
      → load_data env = emptyDF)
  ∧ (∀ d e, ((env.localExists = true ∧ env.localPickle = Except.ok d)
        ∨ (env.localExists = false ∧ env.uploaded = some (Except.ok d)))
      → convert d = Except.error e → load_data env = emptyDF) := by
  refine ⟨?_, ?_, ?_⟩
  · rintro ⟨hl, hu⟩
    simp [load_data, load_data_attempt, hl, hu]
  · rintro e (⟨hl, hp⟩ | ⟨hl, hu⟩)
    · simp [load_data, load_data_attempt, hl, hp, andThen]
    · simp [load_data, load_data_attempt, hl, hu, andThen]
  · rintro d e (⟨hl, hp⟩ | ⟨hl, hu⟩) hconv
    · simp [load_data, load_data_attempt, hl, hp, andThen, hconv]
    · simp [load_data, load_data_attempt, hl, hu, andThen, hconv]

/-- Witness: no local file and no upload yields the empty frame. -/
theorem claim_C10_witness : load_data ⟨false, Except.ok emptyDF, none⟩ = emptyDF :=
  (claim_C10_load_data_failures _).1 ⟨rfl, rfl⟩

/-- Witness for C2 at a concrete frame: in the per-product pass the last
`"A"`-product row carries the product's total delta `10 + (-3) = 7`. -/
theorem claim_C2_witness :
    ((pass1 witDf).filter fun r => keyD r = "A").getLast?
        = some { base := witB.base, estoqueTotalPorProduto := some 7 }
      ∧ ({ base := witB.base, estoqueTotalPorProduto := some 7 : Row }).estoqueTotalPorProduto
        = some (((witDf.filter fun r => keyD r = "A").map valDif).sum) :=
  ⟨by decide, (claim_C2_last_row_total witDf).1 "A" _ (by decide)⟩
